import Mathlib

/-!
Verification development for the paper-download-read repository.

The definitions below are a shallow embedding of
`backend/app/services/crawl_service.py` and
`backend/app/services/state_manager.py`.  Python strings are modelled as
Lean `String` (both count code points, so `len` agrees), Python `int` as
`Int`, byte counts as `Nat`.  Character classes of the regular expressions
(`\s`, `\w`, `\d`) are modelled over their ASCII meaning.  External effects
(the network transport, the `datetime.fromisoformat` library call, the
download stream) enter as explicit oracle parameters; the filesystem is an
explicit association list from file names to payloads (lists of chunk
sizes).
-/

namespace PaperCrawl

/-! ## String helpers shared by the filename policy (crawl_service.py 59-98) -/

/-- Python `str.isspace` over the ASCII whitespace characters, the class
used by `str.strip()` and the `\s+` regular expression. -/
def pyIsSpace (c : Char) : Bool :=
  c = ' ' || c = '\t' || c = '\n' || c = '\r' || c = '\x0b' || c = '\x0c'

/-- Characters removed by `INVALID_FILENAME_CHARS_PATTERN`:
`<>:"/\|?*` and the control range `\x00`-`\x1f`. -/
def isInvalidFilenameChar (c : Char) : Bool :=
  c = '<' || c = '>' || c = ':' || c = '"' || c = '/' || c = '\\' ||
  c = '|' || c = '?' || c = '*' || decide (c.toNat ≤ 0x1f)

/-- Drop leading and trailing characters satisfying `p` (Python `strip`). -/
def stripWhile (p : Char → Bool) (cs : List Char) : List Char :=
  ((cs.dropWhile p).reverse.dropWhile p).reverse

/-- Drop trailing characters satisfying `p` (Python `rstrip`). -/
def rstripWhile (p : Char → Bool) (cs : List Char) : List Char :=
  (cs.reverse.dropWhile p).reverse

/-- Replace each maximal run of characters satisfying `p` by the single
character `r`; models `re.sub(cls + "+", r, s)`. -/
def collapseRunsAux (p : Char → Bool) (r : Char) : Bool → List Char → List Char
  | _, [] => []
  | inRun, c :: rest =>
    if p c then
      (if inRun then ([] : List Char) else [r]) ++ collapseRunsAux p r true rest
    else
      c :: collapseRunsAux p r false rest

/-- Entry point of `collapseRunsAux` outside of a run. -/
def collapseRuns (p : Char → Bool) (r : Char) (cs : List Char) : List Char :=
  collapseRunsAux p r false cs

/-- Membership in the strip set `"-._"` of `sanitize_component`. -/
def isTrimChar (c : Char) : Bool := c = '-' || c = '.' || c = '_'

/-- Python `value.strip()` on a `String`. -/
def pyStrip (s : String) : String :=
  (stripWhile pyIsSpace s.toList).asString

/-- Model of `sanitize_component` (crawl_service.py 59-65): strip
whitespace, drop illegal filename characters, turn whitespace runs into a
hyphen, collapse hyphen runs, trim `-._` at both ends, defaulting to
`"unknown"` when empty. -/
def sanitize_component (value : String) : String :=
  let cs0 := stripWhile pyIsSpace value.toList
  let cs1 := cs0.filter (fun c => !isInvalidFilenameChar c)
  let cs2 := collapseRuns pyIsSpace '-' cs1
  let cs3 := collapseRuns (fun c => c = '-') '-' cs2
  let cs4 := stripWhile isTrimChar cs3
  if cs4.isEmpty then "unknown" else cs4.asString

/-- Python `\w` over ASCII: letters, digits, underscore. -/
def pyIsWord (c : Char) : Bool := c.isAlphanum || c = '_'

/-- Split on whitespace runs dropping empty parts (Python `str.split()`). -/
def splitWSAux : List Char → List Char → List String
  | acc, [] => if acc.isEmpty then [] else [acc.reverse.asString]
  | acc, c :: rest =>
    if pyIsSpace c then
      if acc.isEmpty then splitWSAux [] rest
      else acc.reverse.asString :: splitWSAux [] rest
    else splitWSAux (c :: acc) rest

/-- Entry point of `splitWSAux` with an empty accumulator. -/
def splitWS (cs : List Char) : List String := splitWSAux [] cs

/-- Model of `slugify_title` (crawl_service.py 68-74): newlines and tabs
become spaces, lowercase, non word/space/hyphen characters become spaces,
keep the first `max_words` whitespace-delimited tokens joined by hyphens
(`"untitled"` when none), then sanitize. -/
def slugify_title (title : String) (max_words : Nat := 8) : String :=
  let cs0 := collapseRuns (fun c => c = '\t' || c = '\r' || c = '\n') ' ' title.toList
  let cs1 := cs0.map Char.toLower
  let cs2 := cs1.map (fun c => if pyIsWord c || pyIsSpace c || c = '-' then c else ' ')
  let parts := (splitWS cs2).take max_words
  let slug := if parts.isEmpty then "untitled" else String.intercalate "-" parts
  sanitize_component slug

/-- Model of `enforce_filename_length` (crawl_service.py 77-85).  `limit`
is a Python `int`, so the arithmetic is over `Int`. -/
def enforce_filename_length (base_name : String) (limit : Int) : String :=
  if (base_name.length : Int) ≤ limit - 4 then base_name
  else
    let ellipsisMark := "…"
    let allowed : Int := limit - 4 - (ellipsisMark.length : Int)
    if allowed ≤ 0 then ellipsisMark
    else
      let cut := base_name.toList.take allowed.toNat
      let trimmed := rstripWhile isTrimChar cut
      (if trimmed.isEmpty then cut else trimmed).asString ++ ellipsisMark

/-- Model of `build_filename` (crawl_service.py 88-98). -/
def build_filename (year : Int) (arxiv_id_with_version first_author title : String)
    (limit : Int) : String :=
  let base_name :=
    toString year ++ "-" ++ sanitize_component arxiv_id_with_version ++ "-" ++
      sanitize_component first_author ++ "-" ++ slugify_title title
  enforce_filename_length base_name limit ++ ".pdf"

/-! ## Retrying transport (crawl_service.py 120-154) -/

/-- Result of a single network attempt as observed by
`request_with_retries`: either `requests.RequestException` or a response
with an HTTP status code. -/
inductive AttemptOutcome where
  | exc (msg : String)
  | resp (status : Nat)
deriving DecidableEq, Repr

/-- Errors that `request_with_retries` can raise: a transport exception,
an `HTTPError` from `raise_for_status`, the synthetic
`HTTPError("Unexpected status ...")` recorded as `last_error`, or the
final `RuntimeError`. -/
inductive ReqError where
  | reqException (msg : String)
  | statusError (status : Nat)
  | unexpectedStatus (status : Nat)
  | runtimeError
deriving DecidableEq, Repr

/-- The retryable status set `{429, 500, 502, 503, 504}`. -/
def retryableStatus (s : Nat) : Bool :=
  s = 429 || s = 500 || s = 502 || s = 503 || s = 504

/-- Statuses for which `requests.Response.raise_for_status` raises:
4xx and 5xx. -/
def raisesForStatus (s : Nat) : Bool := 400 ≤ s && s < 600

/-- Backoff slept after attempt `i`: `retry_backoff[min(i, len-1)]`
(crawl_service.py 150). -/
def backoffAt (schedule : List ℚ) (i : Nat) : ℚ :=
  schedule.getD (min i (schedule.length - 1)) 0

/-- Loop body of `request_with_retries`.  `fuel` counts the attempts still
available, `i` is the index of the current attempt, `lastError` the
recorded `last_error`, `sleeps` the backoff durations slept so far.  The
result pairs what the call returns or raises with the backoff trace. -/
def requestWithRetriesAux (transport : Nat → AttemptOutcome) (acceptable : List Nat)
    (schedule : List ℚ) :
    Nat → Nat → Option ReqError → List ℚ → Except ReqError (Nat × Nat) × List ℚ
  | 0, _, lastError, sleeps =>
    (match lastError with
     | some e => Except.error e
     | none => Except.error ReqError.runtimeError, sleeps)
  | fuel + 1, i, _lastError, sleeps =>
    match transport i with
    | AttemptOutcome.exc m =>
      requestWithRetriesAux transport acceptable schedule fuel (i + 1)
        (some (ReqError.reqException m)) (sleeps ++ [backoffAt schedule i])
    | AttemptOutcome.resp s =>
      if s ∈ acceptable then (Except.ok (i, s), sleeps)
      else if retryableStatus s then
        requestWithRetriesAux transport acceptable schedule fuel (i + 1)
          (some (ReqError.unexpectedStatus s)) (sleeps ++ [backoffAt schedule i])
      else if raisesForStatus s then (Except.error (ReqError.statusError s), sleeps)
      else
        requestWithRetriesAux transport acceptable schedule fuel (i + 1)
          (some (ReqError.unexpectedStatus s)) (sleeps ++ [backoffAt schedule i])

/-- Model of `ArxivCrawler.request_with_retries` (crawl_service.py
120-154): up to `maxRetries` attempts starting at attempt 0 with no
recorded error. -/
def request_with_retries (maxRetries : Nat) (transport : Nat → AttemptOutcome)
    (acceptable : List Nat) (schedule : List ℚ) :
    Except ReqError (Nat × Nat) × List ℚ :=
  requestWithRetriesAux transport acceptable schedule maxRetries 0 none []

/-! ## Filesystem model and the per-entry download pipeline
(crawl_service.py 101-253) -/

/-- List-prefix test used by the substring matcher. -/
def isPrefixOf : List Char → List Char → Bool
  | [], _ => true
  | _ :: _, [] => false
  | a :: as, b :: bs => a = b && isPrefixOf as bs

/-- Substring test over character lists. -/
def hasSubstr (hay needle : List Char) : Bool :=
  match hay with
  | [] => needle.isEmpty
  | _ :: rest => isPrefixOf needle hay || hasSubstr rest needle

/-- Substring test over strings (Python `in`). -/
def strContains (hay needle : String) : Bool :=
  hasSubstr hay.toList needle.toList

/-- Whether a file name matches the glob used by `find_existing_versions`
(crawl_service.py 110-112): the pattern `*-{base_id}v*.pdf`, i.e. the name
ends with `".pdf"` and the remainder contains `"-" ++ base_id ++ "v"`. -/
def matchesVersionGlob (base_id : String) (name : String) : Bool :=
  let cs := name.toList
  let tail4 := cs.drop (cs.length - 4)
  decide (tail4 = ".pdf".toList) &&
    hasSubstr (cs.take (cs.length - 4)) ("-" ++ base_id ++ "v").toList

/-- The files of the download directory: an association list from file
name to the payload, a payload being the list of chunk sizes written. -/
abbrev FS := List (String × List Nat)

/-- Lookup a file by name. -/
def fsLookup (fs : FS) (name : String) : Option (List Nat) :=
  (fs.find? (fun p => p.1 = name)).map (fun p => p.2)

/-- Delete a file (no-op when absent, like `unlink(missing_ok=True)`). -/
def fsErase (fs : FS) (name : String) : FS :=
  fs.filter (fun p => !(p.1 = name : Bool))

/-- Create or overwrite a file. -/
def fsInsert (fs : FS) (name : String) (content : List Nat) : FS :=
  fsErase fs name ++ [(name, content)]

/-- Size in bytes of a payload (`stat().st_size`). -/
def payloadSize (content : List Nat) : Nat := content.sum

/-- Model of `find_existing_versions` restricted to the names present in
the modelled download directory. -/
def find_existing_versions (fs : FS) (base_id : String) : List String :=
  (fs.map (fun p => p.1)).filter (matchesVersionGlob base_id)

/-- Outcome dictionary produced by `process_entry` (crawl_service.py
198-206, 233-241, 245-253). -/
structure Outcome where
  title : String
  arxiv_id : String
  id_with_version : String
  status : String
  file_name : Option String
  relative_path : Option String
  reason : Option String
deriving DecidableEq, Repr

/-- Python `datetime` values as far as the crawler observes them: the
`year` attribute plus an opaque remainder. -/
structure PyDateTime where
  year : Int
  rest : String
deriving DecidableEq, Repr

/-- Entry dictionary produced by `parse_atom_feed` and consumed by
`process_entry`. -/
structure EntryRec where
  base_id : String
  id_with_version : String
  title : String
  authors : List String
  published : PyDateTime
  updated : PyDateTime
  pdf_url : String
deriving DecidableEq, Repr

/-- Configuration fields of `CrawlConfig` that the modelled code reads. -/
structure CrawlCfg where
  prefetch_cap : Int
  max_retries : Nat
  retry_backoff : List ℚ
  min_pdf_size_bytes : Nat
  max_filename_length : Int
deriving Repr

/-- What the external world does when `process_entry` downloads one
payload: either the transport raises, or it yields a response with a
content type and a chunk stream; `writeFail (k, msg)` injects a filesystem
error after `k` chunks were written to the temp file, `renameFail msg`
injects a failure of the final rename. -/
inductive DownloadSpec where
  | err (msg : String)
  | ok (contentType : String) (chunks : List Nat) (writeFail : Option (Nat × String))
      (renameFail : Option String)
deriving DecidableEq, Repr

/-- Python `str.lower()` over code points (structural, so that concrete
stores evaluate). -/
def pyLower (s : String) : String := (s.toList.map Char.toLower).asString

/-- Temp-file name `file_path.with_suffix(".part")`; the names built by
`build_filename` always end in `".pdf"`, which `with_suffix` replaces. -/
def tempName (filename : String) : String :=
  (filename.toList.take (filename.length - 4)).asString ++ ".part"

/-- Failure outcome recorded by the `except` handler of `process_entry`. -/
def failedOutcome (e : EntryRec) (reason : String) : Outcome :=
  { title := e.title, arxiv_id := e.base_id, id_with_version := e.id_with_version,
    status := "failed", file_name := none, relative_path := none,
    reason := some reason }

/-- Success outcome of `process_entry` with the given status. -/
def successOutcome (e : EntryRec) (status filename relative : String) : Outcome :=
  { title := e.title, arxiv_id := e.base_id, id_with_version := e.id_with_version,
    status := status, file_name := some filename, relative_path := some relative,
    reason := none }

/-- The `try` block of `process_entry` (crawl_service.py 210-253), entered
after the already-exists check: enumerate sibling versions, download,
validate content type, stream to the temp file, validate size, atomically
publish, delete siblings.  Every failure path removes the temp file and
returns a `failed` outcome. -/
def processDownload (cfg : CrawlCfg) (dl : DownloadSpec) (e : EntryRec)
    (filename temp_name relative : String) (fs : FS) : Outcome × FS :=
  let existing_versions :=
    (find_existing_versions fs e.base_id).filter (fun n => !(n = filename : Bool))
  match dl with
  | DownloadSpec.err m => (failedOutcome e m, fsErase fs temp_name)
  | DownloadSpec.ok ct chunks writeFail renameFail =>
    let ctl := pyLower ct
    if !strContains ctl "pdf" then
      (failedOutcome e ("返回类型异常: " ++ ctl), fsErase fs temp_name)
    else
      match writeFail with
      | some km =>
        let fs1 := fsInsert fs temp_name ((chunks.filter (fun c => c ≠ 0)).take km.1)
        (failedOutcome e km.2, fsErase fs1 temp_name)
      | none =>
        let written := chunks.filter (fun c => c ≠ 0)
        let fs1 := fsInsert fs temp_name written
        if payloadSize written ≤ cfg.min_pdf_size_bytes then
          (failedOutcome e "下载的文件大小异常", fsErase fs1 temp_name)
        else
          match renameFail with
          | some m => (failedOutcome e m, fsErase fs1 temp_name)
          | none =>
            let fs2 := fsInsert (fsErase fs1 temp_name) filename written
            let fs3 := existing_versions.foldl (fun acc n => fsErase acc n) fs2
            let status :=
              if existing_versions.isEmpty then "downloaded" else "replaced_old_version"
            (successOutcome e status filename relative, fs3)

/-- Target file name of an entry (crawl_service.py 184-191): the first
author defaults to `"unknown"` when the author list is empty. -/
def filenameOf (cfg : CrawlCfg) (e : EntryRec) : String :=
  build_filename e.published.year e.id_with_version (e.authors.headD "unknown")
    e.title cfg.max_filename_length

/-- Download oracles whose injected error messages are non-empty strings
(`str(exc)` of the exceptions the pipeline can see). -/
def DownloadMsgsNonEmpty : DownloadSpec → Prop
  | DownloadSpec.err m => m ≠ ""
  | DownloadSpec.ok _ _ writeFail renameFail =>
    (∀ k m, writeFail = some (k, m) → m ≠ "") ∧ (∀ m, renameFail = some m → m ≠ "")

/-- Model of `ArxivCrawler.process_entry` (crawl_service.py 177-253). -/
def process_entry (cfg : CrawlCfg) (dl : DownloadSpec) (e : EntryRec) (fs : FS) :
    Outcome × FS :=
  let filename := filenameOf cfg e
  let relative := "pdf_files/" ++ filename
  let temp_name := tempName filename
  match fsLookup fs filename with
  | some content =>
    if payloadSize content > cfg.min_pdf_size_bytes then
      (successOutcome e "already_exists" filename relative, fs)
    else
      processDownload cfg dl e filename temp_name relative (fsErase fs filename)
  | none => processDownload cfg dl e filename temp_name relative fs

/-! ## Single-term crawl and multi-keyword aggregation
(crawl_service.py 255-311, 394-454) -/

/-- Status counters of `summarize_results` (crawl_service.py 255-267). -/
structure Summary where
  total : Nat
  downloaded : Nat
  already_exists : Nat
  replaced_old_version : Nat
  failed : Nat
deriving DecidableEq, Repr

/-- Model of `ArxivCrawler.summarize_results`: count outcomes per known
status; unknown statuses only contribute to `total`. -/
def summarize_results (results : List Outcome) : Summary :=
  { total := results.length,
    downloaded := results.countP (fun o => o.status = "downloaded"),
    already_exists := results.countP (fun o => o.status = "already_exists"),
    replaced_old_version := results.countP (fun o => o.status = "replaced_old_version"),
    failed := results.countP (fun o => o.status = "failed") }

/-- The `requested` sub-dictionary of a successful crawl response. -/
structure Requested where
  keywords : String
  year_range : String
  max_num : Int
  prefetch_count : Int
  total_found : Nat
deriving DecidableEq, Repr

/-- Response dictionary of `ArxivCrawler.crawl`; the failure shape only
carries `success` and `error`, so the remaining keys default to the value
Python's `dict.get` would produce for the consumers modelled here. -/
structure CrawlResponse where
  success : Bool
  error : Option String := none
  results : List Outcome := []
  summary : Option Summary := none
  requested : Option Requested := none
deriving DecidableEq, Repr

/-- Python slice `l[:n]` for an `int` bound `n` (negative bounds count
from the end, clamped at zero). -/
def pySlice {α : Type} (l : List α) (n : Int) : List α :=
  if 0 ≤ n then l.take n.toNat else l.take ((l.length : Int) + n).toNat

/-- Process the selected entries in order, threading the filesystem
(the `for entry in selected_entries` loop, crawl_service.py 290-293). -/
def processAll (cfg : CrawlCfg) (dl : EntryRec → DownloadSpec) :
    List EntryRec → FS → List Outcome × FS
  | [], fs => ([], fs)
  | e :: rest, fs =>
    let step := process_entry cfg (dl e) e fs
    let further := processAll cfg dl rest step.2
    (step.1 :: further.1, further.2)

/-- Model of `ArxivCrawler.crawl` (crawl_service.py 269-311).  `fetch`
stands for `fetch_arxiv_entries` applied to the prefetch count: the
network and the XML layer already composed, returning parsed entries or
raising; `dl` supplies the download behaviour per entry. -/
def crawl (cfg : CrawlCfg) (fetch : Int → Except String (List EntryRec))
    (dl : EntryRec → DownloadSpec) (keywords : String) (year_range : Int × Int)
    (max_num : Int) (fs : FS) : CrawlResponse × FS :=
  let prefetch_count := min cfg.prefetch_cap (if 0 < max_num then max_num * 3 else 1)
  match fetch prefetch_count with
  | Except.error e =>
    ({ success := false, error := some ("arXiv API 调用失败: " ++ e) }, fs)
  | Except.ok entries =>
    let filtered := entries.filter
      (fun en => year_range.1 ≤ en.published.year && en.published.year ≤ year_range.2)
    let selected := pySlice filtered max_num
    let processed := processAll cfg dl selected fs
    ({ success := true,
       results := processed.1,
       summary := some (summarize_results processed.1),
       requested := some
         { keywords := keywords,
           year_range := toString year_range.1 ++ "-" ++ toString year_range.2,
           max_num := max_num,
           prefetch_count := prefetch_count,
           total_found := filtered.length } }, processed.2)

/-- Identity key of the deduplication step (crawl_service.py 433):
`str(item.get("id_with_version") or item.get("file_name") or
item.get("title"))`, where Python `or` skips falsy values (`None`, `""`). -/
def uniqueIdOf (o : Outcome) : String :=
  if o.id_with_version ≠ "" then o.id_with_version
  else
    match o.file_name with
    | some f => if f ≠ "" then f else o.title
    | none => o.title

/-- Failure message recorded for one keyword:
`response.get("error") or "关键字检索失败"` (crawl_service.py 429). -/
def failureReasonOf (err : Option String) : String :=
  match err with
  | some s => if s = "" then "关键字检索失败" else s
  | none => "关键字检索失败"

/-- The inner `for item in response.get("results", [])` loop: append the
items whose identity key is unseen (crawl_service.py 432-437). -/
def dedupFold : List Outcome → List String → List Outcome →
    List Outcome × List String
  | agg, seen, [] => (agg, seen)
  | agg, seen, item :: rest =>
    let uid := uniqueIdOf item
    if uid ∈ seen then dedupFold agg seen rest
    else dedupFold (agg ++ [item]) (uid :: seen) rest

/-- Quota left for one keyword:
`max(max_num - len(aggregated_results), 0) if max_num else 0`
(crawl_service.py 420). -/
def remainingOf (max_num : Int) (agg : List Outcome) : Int :=
  if max_num ≠ 0 then max (max_num - agg.length) 0 else 0

/-- The `max_num` passed to a sub-run: `remaining or max_num`
(crawl_service.py 426). -/
def subMaxNum (max_num rem : Int) : Int := if rem ≠ 0 then rem else max_num

/-- The keyword loop of `crawl_with_keyword_list` (crawl_service.py
419-439), carrying `aggregated_results`, `seen_ids`, `failures` and the
filesystem.  `fetchFor` supplies each keyword's search behaviour. -/
def crawlListAux (cfg : CrawlCfg) (fetchFor : String → Int → Except String (List EntryRec))
    (dl : EntryRec → DownloadSpec) (year_range : Int × Int) (max_num : Int) :
    List String → List Outcome → List String → List String → FS →
    List Outcome × List String × FS
  | [], agg, _seen, fails, fs => (agg, fails, fs)
  | kw :: rest, agg, seen, fails, fs =>
    if max_num ≠ 0 ∧ remainingOf max_num agg ≤ 0 then (agg, fails, fs)
    else
      let sub := crawl cfg (fetchFor kw) dl kw year_range
        (subMaxNum max_num (remainingOf max_num agg)) fs
      if !sub.1.success then
        crawlListAux cfg fetchFor dl year_range max_num rest agg seen
          (fails ++ [kw ++ ": " ++ failureReasonOf sub.1.error]) sub.2
      else
        let merged := dedupFold agg seen sub.1.results
        if max_num ≠ 0 ∧ max_num ≤ (merged.1.length : Int) then (merged.1, fails, sub.2)
        else crawlListAux cfg fetchFor dl year_range max_num rest merged.1 merged.2
          fails sub.2

/-- Aggregate response of `crawl_with_keyword_list` (crawl_service.py
447-454; the empty-keyword shape of 403-410 has no `storage` key and a
hard-coded zero summary, which `summarize_results []` also is). -/
structure KWResponse where
  success : Bool
  error : Option String
  results : List Outcome
  summary : Summary
  generated_keywords : List String
deriving DecidableEq, Repr

/-- Model of `crawl_with_keyword_list` (crawl_service.py 394-454). -/
def crawl_with_keyword_list (cfg : CrawlCfg)
    (fetchFor : String → Int → Except String (List EntryRec))
    (dl : EntryRec → DownloadSpec) (keyword_list : List String)
    (year_range : Int × Int) (max_num : Int) (fs : FS) : KWResponse × FS :=
  let kws := (keyword_list.map pyStrip).filter (fun k => !(k = "" : Bool))
  if kws.isEmpty then
    ({ success := false, error := some "未提供有效关键词", results := [],
       summary := summarize_results [], generated_keywords := [] }, fs)
  else
    let looped := crawlListAux cfg fetchFor dl year_range max_num kws [] [] [] fs
    ({ success := !looped.1.isEmpty,
       error := if looped.2.1.isEmpty then none
         else some (String.intercalate "; " looped.2.1),
       results := looped.1,
       summary := summarize_results looped.1,
       generated_keywords := kws }, looped.2.2)

/-! ## Feed parsing (crawl_service.py 101-107, 316-362) -/

/-- Match exactly `n` ASCII digits at the head, returning them with the
rest of the input. -/
def matchDigits : Nat → List Char → Option (List Char × List Char)
  | 0, cs => some ([], cs)
  | _ + 1, [] => none
  | n + 1, c :: cs =>
    if c.isDigit then (matchDigits n cs).map (fun p => (c :: p.1, p.2)) else none

/-- Try the pattern `(\d{4}\.\d{4,5})(v\d+)?` anchored at the head of the
input, with the greedy matching Python `re` uses: five digits are
preferred over four, and the optional version group takes a maximal digit
run after `v`.  Returns the base id and the optionally matched version
group. -/
def matchArxivAt (cs : List Char) : Option (String × Option String) :=
  match matchDigits 4 cs with
  | none => none
  | some p4 =>
    match p4.2 with
    | '.' :: rest2 =>
      match matchDigits 4 rest2 with
      | none => none
      | some m4 =>
        let ext : List Char × List Char :=
          match m4.2 with
          | c :: r => if c.isDigit then (m4.1 ++ [c], r) else (m4.1, m4.2)
          | [] => (m4.1, m4.2)
        let base := (p4.1 ++ '.' :: ext.1).asString
        match ext.2 with
        | 'v' :: r =>
          let ds := r.takeWhile (fun c => c.isDigit)
          if ds.isEmpty then some (base, none)
          else some (base, some (('v' :: ds).asString))
        | _ => some (base, none)
    | _ => none

/-- Leftmost search of the pattern, as `re.search` scans positions. -/
def reSearchArxiv : List Char → Option (String × Option String)
  | [] => none
  | c :: rest =>
    match matchArxivAt (c :: rest) with
    | some r => some r
    | none => reSearchArxiv rest

/-- Model of `extract_arxiv_ids` (crawl_service.py 101-107): the version
group defaults to `"v1"`, and `id_with_version` is the concatenation of
base id and version tag. -/
def extract_arxiv_ids (identifier : String) : Except String (String × String) :=
  match reSearchArxiv identifier.toList with
  | none => Except.error ("无法解析 arXiv ID: " ++ identifier)
  | some bv => Except.ok (bv.1, bv.1 ++ bv.2.getD "v1")

/-- Python `text.replace("Z", "+00:00")`: the needle is a single
character, so the substitution is per character. -/
def replaceZOffset (s : String) : String :=
  (s.toList.flatMap (fun c => if c = 'Z' then "+00:00".toList else [c])).asString

/-- One `<entry>` node of the Atom feed after XML decoding: the text
content `findtext` reads (with its `default=""`), the author names, and
the `(type, href)` attribute pairs of the link elements. -/
structure AtomEntryElem where
  idText : String
  titleText : String
  publishedText : String
  updatedText : String
  authorNames : List String
  links : List (Option String × Option String)
deriving Repr

/-- The per-entry body of the `parse_atom_feed` loop (crawl_service.py
319-361).  `fromIso` models `datetime.fromisoformat`, returning `none`
where the library raises `ValueError`.  A `none` result is an entry the
loop skips with `continue`. -/
def parseEntryElem (fromIso : String → Option PyDateTime) (el : AtomEntryElem) :
    Option EntryRec :=
  if el.idText = "" then none
  else
    match extract_arxiv_ids el.idText with
    | Except.error _ => none
    | Except.ok ids =>
      let title := pyStrip el.titleText
      match fromIso (replaceZOffset el.publishedText) with
      | none => none
      | some published =>
        let updated := (fromIso (replaceZOffset el.updatedText)).getD published
        let authors := el.authorNames.map pyStrip
        let firstPdf := (el.links.find?
          (fun l => l.1 = some "application/pdf")).bind (fun l => l.2)
        let fallbackUrl := "https://arxiv.org/pdf/" ++ ids.2 ++ ".pdf"
        let pdf_url :=
          match firstPdf with
          | some u => if u = "" then fallbackUrl else u
          | none => fallbackUrl
        some { base_id := ids.1, id_with_version := ids.2, title := title,
               authors := authors, published := published, updated := updated,
               pdf_url := pdf_url }

/-- Model of `parse_atom_feed` (crawl_service.py 316-362) on a decoded
document: the entry loop appends the successfully parsed entries in
document order, which is exactly `filterMap`. -/
def parse_atom_feed (fromIso : String → Option PyDateTime)
    (elems : List AtomEntryElem) : List EntryRec :=
  elems.filterMap (parseEntryElem fromIso)

/-! ## Job state store (state_manager.py) -/

/-- The `_parse_state` dictionary (state_manager.py 10-21), with the
result records kept generic. -/
structure ParseState (ρ : Type) where
  status : String
  total : Int
  current : Int
  message : String
  last_error : Option String
  results : List ρ
  started_at : Option String
  finished_at : Option String
  updated_at : Option String
  source_dir : Option String
deriving DecidableEq, Repr

/-- The initial `_parse_state` value. -/
def initialParseState {ρ : Type} : ParseState ρ :=
  { status := "idle", total := 0, current := 0, message := "等待解析任务",
    last_error := none, results := [], started_at := none, finished_at := none,
    updated_at := none, source_dir := none }

/-- Model of `begin_parse` (state_manager.py 38-53); `now` stands for the
`_now_iso()` stamps of the operation. -/
def begin_parse {ρ : Type} (st : ParseState ρ) (total : Int) (message : Option String)
    (source_dir : Option String) (now : String) : ParseState ρ :=
  { status := "running", total := total, current := 0,
    message := message.getD "解析任务已启动", last_error := none, results := [],
    started_at := some now, finished_at := none, updated_at := some now,
    source_dir := match source_dir with | some d => some d | none => st.source_dir }

/-- Model of `append_parse_result` (state_manager.py 56-61): append the
record, bump `current` clamped at `total`, stamp `updated_at`. -/
def append_parse_result {ρ : Type} (st : ParseState ρ) (record : ρ) (now : String) :
    ParseState ρ :=
  { st with results := st.results ++ [record],
            current := min (st.current + 1) st.total,
            updated_at := some now }

/-- Model of `complete_parse` (state_manager.py 64-70). -/
def complete_parse {ρ : Type} (st : ParseState ρ) (message : Option String)
    (now : String) : ParseState ρ :=
  { st with status := "completed", message := message.getD "解析任务完成",
            finished_at := some now, current := st.total, updated_at := some now }

/-- Model of `fail_parse` (state_manager.py 73-82). -/
def fail_parse {ρ : Type} (st : ParseState ρ) (error_message : String)
    (source_dir : Option String) (now : String) : ParseState ρ :=
  { st with status := "failed", message := "解析任务失败",
            last_error := some error_message, results := [],
            finished_at := some now, updated_at := some now,
            source_dir := match source_dir with | some d => some d | none => st.source_dir }

/-- Fold of `append_parse_result` over a batch of records with their
stamps, for stating the running-phase invariant. -/
def appendMany {ρ : Type} (st : ParseState ρ) (records : List (ρ × String)) :
    ParseState ρ :=
  records.foldl (fun s r => append_parse_result s r.1 r.2) st

/-! ## Object-heap model of the state store

Python dictionaries and lists are mutable objects aliased by reference,
so the deep-copy contract of `get_parse_state` / `get_excel_state`
(state_manager.py 85-92, 132-134) is stated over an explicit object heap:
addresses name the mutable objects, allocation uses fresh addresses, and
mutation is an in-place update at an address. -/

/-- A flat Python dict of scalar values (a parse result record, or the
whole `_excel_state` dict, whose values are all scalars); `none` models
Python `None`. -/
structure RecordObj where
  fields : List (String × Option String)
deriving DecidableEq, Repr

/-- Scalar fields of the `_parse_state` dict. -/
structure TopData where
  status : String
  total : Int
  current : Int
  message : String
  last_error : Option String
  started_at : Option String
  finished_at : Option String
  updated_at : Option String
  source_dir : Option String
deriving DecidableEq, Repr

/-- The `_parse_state` dict object: its scalar fields plus the address of
its `results` list object. -/
structure TopObj where
  data : TopData
  resultsAddr : Nat
deriving DecidableEq, Repr

/-- The object heap: a fresh-address counter and one partial map per
object kind (parse-state dicts, lists of record addresses, flat record
dicts). -/
structure Heap where
  next : Nat
  tops : Nat → Option TopObj
  lists : Nat → Option (List Nat)
  recs : Nat → Option RecordObj

/-- Allocate a parse-state dict object. -/
def allocTop (h : Heap) (t : TopObj) : Heap × Nat :=
  ({ next := h.next + 1,
     tops := fun x => if x = h.next then some t else h.tops x,
     lists := h.lists, recs := h.recs }, h.next)

/-- Allocate a list object. -/
def allocList (h : Heap) (es : List Nat) : Heap × Nat :=
  ({ next := h.next + 1, tops := h.tops,
     lists := fun x => if x = h.next then some es else h.lists x,
     recs := h.recs }, h.next)

/-- Allocate a record object. -/
def allocRec (h : Heap) (r : RecordObj) : Heap × Nat :=
  ({ next := h.next + 1, tops := h.tops, lists := h.lists,
     recs := fun x => if x = h.next then some r else h.recs x }, h.next)

/-- In-place mutation of the dict object at `a` (no-op when absent). -/
def setTopObj (h : Heap) (a : Nat) (f : TopObj → TopObj) : Heap :=
  { h with tops := fun x => if x = a then (h.tops x).map f else h.tops x }

/-- In-place mutation of the list object at `a`. -/
def setListObj (h : Heap) (a : Nat) (f : List Nat → List Nat) : Heap :=
  { h with lists := fun x => if x = a then (h.lists x).map f else h.lists x }

/-- In-place mutation of the record object at `a`. -/
def setRecObj (h : Heap) (a : Nat) (f : RecordObj → RecordObj) : Heap :=
  { h with recs := fun x => if x = a then (h.recs x).map f else h.recs x }

/-- Placeholder used by total lookups; well-formedness hypotheses keep it
out of reach. -/
def defaultTopObj : TopObj :=
  { data := { status := "", total := 0, current := 0, message := "",
              last_error := none, started_at := none, finished_at := none,
              updated_at := none, source_dir := none },
    resultsAddr := 0 }

/-- Deep copy of the record objects behind a list of addresses, in order
(the record-level part of `deepcopy(_parse_state)`). -/
def copyRecs (h : Heap) : List Nat → Heap × List Nat
  | [] => (h, [])
  | e :: rest =>
    let a1 := allocRec h ((h.recs e).getD ⟨[]⟩)
    let further := copyRecs a1.1 rest
    (further.1, a1.2 :: further.2)

/-- Model of `get_parse_state` (state_manager.py 85-92): `deepcopy` the
state (fresh record copies and a fresh list of them, plus a fresh top
dict), then rebind `state["results"]` to `list(results)` — one more fresh
list object over the same copied records.  Returns the new heap and the
address of the snapshot. -/
def get_parse_state (h : Heap) (a : Nat) : Heap × Nat :=
  let t := (h.tops a).getD defaultTopObj
  let es := (h.lists t.resultsAddr).getD []
  let c := copyRecs h es
  let l1 := allocList c.1 c.2
  let l2 := allocList l1.1 c.2
  let tc := allocTop l2.1 { data := t.data, resultsAddr := l2.2 }
  (tc.1, tc.2)

/-- Model of `get_excel_state` (state_manager.py 132-134): `deepcopy` of a
flat dict is a fresh record object with the same fields. -/
def get_excel_state (h : Heap) (a : Nat) : Heap × Nat :=
  allocRec h ((h.recs a).getD ⟨[]⟩)

/-- Value tree observable from a parse-state address: the scalar fields
and the record values of the results list, ignoring object identity. -/
def readParse (h : Heap) (a : Nat) : Option (TopData × List RecordObj) :=
  (h.tops a).bind fun t =>
    (h.lists t.resultsAddr).bind fun es =>
      some (t.data, es.map (fun e => (h.recs e).getD ⟨[]⟩))

/-- Value observable from an excel-state address. -/
def readExcel (h : Heap) (a : Nat) : Option RecordObj := h.recs a

/-- Addresses of the mutable objects reachable from a parse-state dict:
the dict itself, its results list, and the records inside. -/
def parseAddrs (h : Heap) (a : Nat) : List Nat :=
  a :: (match h.tops a with
        | some t => t.resultsAddr :: (h.lists t.resultsAddr).getD []
        | none => [])

/-- Every allocated address is below the fresh-address counter. -/
def HeapWF (h : Heap) : Prop :=
  (∀ x, h.next ≤ x → h.tops x = none) ∧
  (∀ x, h.next ≤ x → h.lists x = none) ∧
  (∀ x, h.next ≤ x → h.recs x = none)

/-- A live parse state at `a`: the dict exists, its results list exists,
and every element address holds a record. -/
def ParseLive (h : Heap) (a : Nat) : Prop :=
  ∃ t, h.tops a = some t ∧
    ∃ es, h.lists t.resultsAddr = some es ∧ ∀ e ∈ es, (h.recs e).isSome

/-- Assoc-list dict update used by the excel transitions. -/
def dictSet (fields : List (String × Option String)) (k : String) (v : Option String) :
    List (String × Option String) :=
  if (fields.map Prod.fst).contains k then
    fields.map (fun p => if p.1 = k then (k, v) else p)
  else fields ++ [(k, v)]

/-- Assoc-list dict read (`dict.get`, defaulting to `None`). -/
def dictGet (fields : List (String × Option String)) (k : String) : Option String :=
  ((fields.find? (fun p => p.1 = k)).map Prod.snd).getD none

/-- Heap-level `begin_parse`: the `update` literal evaluates `[]` to a
fresh list object, then rewrites the state dict in place. -/
def beginParseH (h : Heap) (a : Nat) (total : Int) (message : Option String)
    (source_dir : Option String) (now : String) : Heap :=
  let l := allocList h []
  setTopObj l.1 a (fun t =>
    { data := { status := "running", total := total, current := 0,
                message := message.getD "解析任务已启动", last_error := none,
                started_at := some now, finished_at := none, updated_at := some now,
                source_dir := match source_dir with
                              | some d => some d
                              | none => t.data.source_dir },
      resultsAddr := l.2 })

/-- Heap-level `append_parse_result`: allocate the caller-supplied record,
push its address onto the live results list, bump the counters in the
state dict. -/
def appendParseH (h : Heap) (a : Nat) (record : RecordObj) (now : String) : Heap :=
  match h.tops a with
  | none => h
  | some t =>
    let r := allocRec h record
    let h1 := setListObj r.1 t.resultsAddr (fun es => es ++ [r.2])
    setTopObj h1 a (fun t0 =>
      { t0 with data := { t0.data with
          current := min (t0.data.current + 1) t0.data.total,
          updated_at := some now } })

/-- Heap-level `complete_parse`: field writes on the state dict only. -/
def completeParseH (h : Heap) (a : Nat) (message : Option String) (now : String) :
    Heap :=
  setTopObj h a (fun t =>
    { t with data := { t.data with
        status := "completed",
        message := message.getD "解析任务完成",
        finished_at := some now,
        current := t.data.total,
        updated_at := some now } })

/-- Heap-level `fail_parse`: rebinds `results` to a fresh empty list and
rewrites the scalar fields. -/
def failParseH (h : Heap) (a : Nat) (error_message : String)
    (source_dir : Option String) (now : String) : Heap :=
  let l := allocList h []
  setTopObj l.1 a (fun t =>
    { data := { t.data with
        status := "failed",
        message := "解析任务失败",
        last_error := some error_message,
        finished_at := some now,
        updated_at := some now,
        source_dir := match source_dir with
                      | some d => some d
                      | none => t.data.source_dir },
      resultsAddr := l.2 })

/-- Heap-level `reset_excel_state` (state_manager.py 103-113). -/
def resetExcelH (h : Heap) (a : Nat) (target_dir : Option String) (now : String) :
    Heap :=
  setRecObj h a (fun r =>
    ⟨dictSet (dictSet (dictSet (dictSet (dictSet r.fields "status" (some "running"))
        "file_path" none) "message" (some "正在生成 Excel 报告"))
        "updated_at" (some now))
        "target_dir" (match target_dir with
                      | some d => some d
                      | none => dictGet r.fields "target_dir")⟩)

/-- Heap-level `succeed_excel` (state_manager.py 116-122); `parent_dir`
stands for `str(file_path.parent)`. -/
def succeedExcelH (h : Heap) (a : Nat) (file_path parent_dir now : String) : Heap :=
  setRecObj h a (fun r =>
    ⟨dictSet (dictSet (dictSet (dictSet (dictSet r.fields
        "status" (some "completed"))
        "file_path" (some file_path)) "message" (some "Excel 生成完成"))
        "updated_at" (some now)) "target_dir" (some parent_dir)⟩)

/-- Heap-level `fail_excel` (state_manager.py 125-129). -/
def failExcelH (h : Heap) (a : Nat) (error_message now : String) : Heap :=
  setRecObj h a (fun r =>
    ⟨dictSet (dictSet (dictSet r.fields "status" (some "failed"))
        "message" (some error_message)) "updated_at" (some now)⟩)

/-- Correspondence between an outcome and the entry it was produced for:
the identity fields are copied from the entry. -/
def outcomeMatchesEntry (o : Outcome) (e : EntryRec) : Prop :=
  o.title = e.title ∧ o.arxiv_id = e.base_id ∧ o.id_with_version = e.id_with_version

/-- A concrete configuration used by concrete examples. -/
def sampleCfg : CrawlCfg :=
  { prefetch_cap := 30, max_retries := 3, retry_backoff := [1, 2],
    min_pdf_size_bytes := 4, max_filename_length := 255 }

/-- A concrete in-range entry used by concrete examples. -/
def sampleEntry : EntryRec :=
  { base_id := "2101.00001", id_with_version := "2101.00001v1", title := "T",
    authors := ["A"], published := { year := 2023, rest := "p" },
    updated := { year := 2023, rest := "u" }, pdf_url := "u" }

/-- The same entry at version 2, used by the versioning example. -/
def sampleEntryV2 : EntryRec :=
  { base_id := "2101.00001", id_with_version := "2101.00001v2", title := "T",
    authors := ["A"], published := { year := 2023, rest := "p" },
    updated := { year := 2023, rest := "u" }, pdf_url := "u" }

/-- A feed entry whose identifier holds no arXiv id pattern. -/
def sampleBadElem : AtomEntryElem :=
  { idText := "oai:arXiv.org:hep-th/9901001", titleText := "Bad",
    publishedText := "2021-01-01T00:00:00Z", updatedText := "2021-01-01T00:00:00Z",
    authorNames := [], links := [] }

/-- A valid feed entry with a versioned identifier, an unparseable
updated timestamp, and no payload link. -/
def sampleGoodElem : AtomEntryElem :=
  { idText := "http://arxiv.org/abs/2101.00001v2", titleText := " T ",
    publishedText := "2021-01-01T00:00:00Z", updatedText := "bad",
    authorNames := ["A"], links := [] }

/-- A concrete stand-in for `datetime.fromisoformat` accepting exactly one
timestamp. -/
def sampleFromIso : String → Option PyDateTime := fun s =>
  if s = "2021-01-01T00:00:00+00:00" then some { year := 2021, rest := s } else none

/-- A concrete heap holding one parse-state dict (address 0, results list
at 1 containing the record at 2); the record object also doubles as a
concrete excel-state dict. -/
def sampleHeap : Heap :=
  { next := 3,
    tops := fun x => if x = 0 then
      some { data := { status := "running", total := 1, current := 1, message := "m",
                       last_error := none, started_at := some "t", finished_at := none,
                       updated_at := some "t", source_dir := none },
             resultsAddr := 1 } else none,
    lists := fun x => if x = 1 then some [2] else none,
    recs := fun x => if x = 2 then some ⟨[("status", some "idle")]⟩ else none }

end PaperCrawl

namespace PaperCrawl

/-! ## Theorems -/

/-- Example filename of spec §8, checked against `build_filename`. -/
theorem build_filename_spec_example :
    build_filename 2023 "2101.00001v1" "Alice Smith" "A Study of Things: An Exploration" 255 =
      "2023-2101.00001v1-Alice-Smith-a-study-of-things-an-exploration.pdf" := by
  decide

/-- C1 counterexample: a transport answering 201 then 200 with accepted
set `{200}`.  The 201 response is non-accepted and outside the retryable
set, yet `request_with_retries` retries it (201 is not a 4xx/5xx status,
so `raise_for_status` does not raise) and the call succeeds on the second
attempt — refuting "any other non-accepted status fails immediately with
an HTTP error and is not retried". -/
theorem request_with_retries_201_is_retried :
    (request_with_retries 3 (fun i => AttemptOutcome.resp (if i = 0 then 201 else 200))
        [200] [1/2, 1, 2]).1 = Except.ok (1, 200) ∧
      (201 ∉ [200]) ∧ retryableStatus 201 = false := by
  refine ⟨?_, by decide, by decide⟩
  rfl

/-- C1 (amended): one attempt of `request_with_retries` returns an
accepted status immediately; a status in `{429, 500, 502, 503, 504}` and a
transport exception are retried after sleeping
`retry_backoff[min(i, len-1)]`; a non-accepted status in the 4xx/5xx range
outside that set raises an HTTP error immediately without further
attempts; a non-accepted status outside 4xx/5xx is also recorded as an
HTTP error and retried; after the attempts are exhausted the last observed
error is raised; the spec examples: 503, 503, 200 succeeds with
`maxRetries = 3`, and 404 fails on the first attempt with no backoff. -/
theorem request_with_retries_policy
    (transport : Nat → AttemptOutcome) (acceptable : List Nat) (schedule : List ℚ)
    (fuel i : Nat) (lastErr : Option ReqError) (sleeps : List ℚ)
    (s : Nat) (m : String) (e : ReqError) :
    (transport i = AttemptOutcome.resp s → s ∈ acceptable →
      requestWithRetriesAux transport acceptable schedule (fuel + 1) i lastErr sleeps
        = (Except.ok (i, s), sleeps)) ∧
    (transport i = AttemptOutcome.resp s → s ∉ acceptable → retryableStatus s = true →
      requestWithRetriesAux transport acceptable schedule (fuel + 1) i lastErr sleeps
        = requestWithRetriesAux transport acceptable schedule fuel (i + 1)
            (some (ReqError.unexpectedStatus s))
            (sleeps ++ [schedule.getD (min i (schedule.length - 1)) 0])) ∧
    (transport i = AttemptOutcome.exc m →
      requestWithRetriesAux transport acceptable schedule (fuel + 1) i lastErr sleeps
        = requestWithRetriesAux transport acceptable schedule fuel (i + 1)
            (some (ReqError.reqException m))
            (sleeps ++ [schedule.getD (min i (schedule.length - 1)) 0])) ∧
    (transport i = AttemptOutcome.resp s → s ∉ acceptable → retryableStatus s = false →
      raisesForStatus s = true →
      requestWithRetriesAux transport acceptable schedule (fuel + 1) i lastErr sleeps
        = (Except.error (ReqError.statusError s), sleeps)) ∧
    (transport i = AttemptOutcome.resp s → s ∉ acceptable → retryableStatus s = false →
      raisesForStatus s = false →
      requestWithRetriesAux transport acceptable schedule (fuel + 1) i lastErr sleeps
        = requestWithRetriesAux transport acceptable schedule fuel (i + 1)
            (some (ReqError.unexpectedStatus s))
            (sleeps ++ [schedule.getD (min i (schedule.length - 1)) 0])) ∧
    (requestWithRetriesAux transport acceptable schedule 0 i (some e) sleeps
      = (Except.error e, sleeps)) ∧
    (request_with_retries 3 (fun j => AttemptOutcome.resp ([503, 503, 200].getD j 0))
        [200] schedule
      = (Except.ok (2, 200),
         [schedule.getD (min 0 (schedule.length - 1)) 0,
          schedule.getD (min 1 (schedule.length - 1)) 0])) ∧
    (request_with_retries 3 (fun _ => AttemptOutcome.resp 404) [200] schedule
      = (Except.error (ReqError.statusError 404), [])) := by
  refine ⟨?_, ?_, ?_, ?_, ?_, ?_, ?_, ?_⟩
  · intro ht hs
    simp [requestWithRetriesAux, ht, hs]
  · intro ht hs hr
    simp [requestWithRetriesAux, ht, hs, hr, backoffAt]
  · intro ht
    simp [requestWithRetriesAux, ht, backoffAt]
  · intro ht hs hr hraise
    simp [requestWithRetriesAux, ht, hs, hr, hraise]
  · intro ht hs hr hraise
    simp [requestWithRetriesAux, ht, hs, hr, hraise, backoffAt]
  · simp [requestWithRetriesAux]
  · simp [request_with_retries, requestWithRetriesAux, backoffAt, retryableStatus,
      raisesForStatus]
  · simp [request_with_retries, requestWithRetriesAux, backoffAt, retryableStatus,
      raisesForStatus]

/-- C1 witness: the policy theorem applied to a transport that answers 200
at once, discharging its hypotheses at attempt 0. -/
theorem request_with_retries_policy_witness :
    request_with_retries 1 (fun _ => AttemptOutcome.resp 200) [200] [] =
      (Except.ok (0, 200), []) := by
  have h := (request_with_retries_policy (fun _ => AttemptOutcome.resp 200) [200] []
    0 0 none [] 200 "" ReqError.runtimeError).1 rfl (by decide)
  simpa [request_with_retries] using h

/-- Helper: `asString` preserves length. -/
theorem length_asString (cs : List Char) : cs.asString.length = cs.length := rfl

/-- Helper: `dropWhile` never lengthens a list. -/
theorem dropWhile_length_le (p : Char → Bool) (cs : List Char) :
    (cs.dropWhile p).length ≤ cs.length := by
  induction cs with
  | nil => simp
  | cons a l ih =>
    by_cases h : p a
    · simp only [List.dropWhile_cons, h, if_pos]
      exact le_trans ih (by simp)
    · simp [List.dropWhile_cons, h]

/-- Helper: `rstripWhile` never lengthens a list. -/
theorem rstripWhile_length_le (p : Char → Bool) (cs : List Char) :
    (rstripWhile p cs).length ≤ cs.length := by
  unfold rstripWhile
  simpa using dropWhile_length_le p cs.reverse

/-- C4 counterexample: with `maxLength = 4` the base name cannot fit, the
truncation budget is negative, and the degraded result `"….pdf"` has
length 5 > 4 — so the bound "length ≤ maxLength for every maxLength"
fails. -/
theorem build_filename_limit4_too_long :
    build_filename 2023 "2101.00001v1" "Alice" "Title" 4 = "….pdf" ∧
      ¬ (((build_filename 2023 "2101.00001v1" "Alice" "Title" 4).length : Int) ≤ 4) := by
  constructor
  · rfl
  · decide

/-- Helper: the length bound of `enforce_filename_length` leaving room for
the 4-character extension, for limits of at least 5. -/
theorem enforce_filename_length_le (base : String) (limit : Int) (h5 : 5 ≤ limit) :
    ((enforce_filename_length base limit).length : Int) ≤ limit - 4 := by
  unfold enforce_filename_length
  by_cases hfit : (base.length : Int) ≤ limit - 4
  · rw [if_pos hfit]
    exact hfit
  · rw [if_neg hfit]
    simp only
    have hell : (("…" : String).length : Int) = 1 := by decide
    by_cases hneg : limit - 4 - (("…" : String).length : Int) ≤ 0
    · rw [if_pos hneg]
      omega
    · rw [if_neg hneg]
      set allowed : Int := limit - 4 - (("…" : String).length : Int) with hallowed
      set cut := base.toList.take allowed.toNat with hcut
      have hcutlen : cut.length ≤ allowed.toNat := by
        rw [hcut, List.length_take]
        exact Nat.min_le_left _ _
      have htrim : (rstripWhile isTrimChar cut).length ≤ allowed.toNat :=
        le_trans (rstripWhile_length_le _ _) hcutlen
      have hiflen :
          (if (rstripWhile isTrimChar cut).isEmpty then cut
            else rstripWhile isTrimChar cut).length ≤ allowed.toNat := by
        by_cases hemp : (rstripWhile isTrimChar cut).isEmpty
        · rw [if_pos hemp]; exact hcutlen
        · rw [if_neg hemp]; exact htrim
      rw [String.length_append, length_asString]
      have hallow_nonneg : 0 ≤ allowed := by omega
      have : ((allowed.toNat : Int)) = allowed := Int.toNat_of_nonneg hallow_nonneg
      have hle : ((if (rstripWhile isTrimChar cut).isEmpty then cut
          else rstripWhile isTrimChar cut).length : Int) ≤ allowed := by
        omega
      omega

/-- C4 (amended): for every `maxLength ≥ 5` the filename produced by
`build_filename`, including `".pdf"`, has length at most `maxLength`; when
the base name does not fit and the budget `maxLength - 4 - len(ellipsis)`
is positive, the base is cut to that many characters, trailing `-._`
trimmed (falling back to the untrimmed cut when trimming empties it) and
one ellipsis appended; when the budget is non-positive the result
degrades to the bare ellipsis marker, so the full name is `"….pdf"` of
length 5, which exceeds any `maxLength` below 5. -/
theorem build_filename_length_policy (year : Int)
    (idv author title base : String) (limit : Int) :
    (5 ≤ limit → ((build_filename year idv author title limit).length : Int) ≤ limit) ∧
    (limit - 4 < (base.length : Int) → 0 < limit - 5 →
      enforce_filename_length base limit =
        (if (rstripWhile isTrimChar (base.toList.take (limit - 5).toNat)).isEmpty
          then base.toList.take (limit - 5).toNat
          else rstripWhile isTrimChar (base.toList.take (limit - 5).toNat)).asString
          ++ "…") ∧
    (limit - 4 < (base.length : Int) → limit - 5 ≤ 0 →
      enforce_filename_length base limit = "…") := by
  refine ⟨?_, ?_, ?_⟩
  · intro hlim
    unfold build_filename
    rw [String.length_append]
    have h4 : ((".pdf" : String).length : Int) = 4 := by decide
    have := enforce_filename_length_le (toString year ++ "-" ++
      sanitize_component idv ++ "-" ++ sanitize_component author ++ "-" ++
      slugify_title title) limit hlim
    omega
  · intro hbig hpos
    unfold enforce_filename_length
    rw [if_neg (by omega)]
    simp only
    have hell : (("…" : String).length : Int) = 1 := by decide
    rw [if_neg (by omega)]
    have : limit - 4 - (("…" : String).length : Int) = limit - 5 := by omega
    rw [this]
  · intro hbig hneg
    unfold enforce_filename_length
    rw [if_neg (by omega)]
    simp only
    have hell : (("…" : String).length : Int) = 1 := by decide
    rw [if_pos (by omega)]

/-- C4 witness: the amended bound applied at `maxLength = 255` and at a
small limit exercising the truncation branch. -/
theorem build_filename_length_policy_witness :
    ((5 : Int) ≤ 255) ∧
      ((build_filename 2023 "2101.00001v1" "Alice Smith"
          "A Study of Things: An Exploration" 255).length : Int) ≤ 255 := by
  exact ⟨by decide,
    (build_filename_length_policy 2023 "2101.00001v1" "Alice Smith"
      "A Study of Things: An Exploration" "" 255).1 (by decide)⟩

/-- Helper: effect of a batch of `append_parse_result` calls on a state
whose counter is below its total. -/
theorem appendMany_spec {ρ : Type} (records : List (ρ × String)) (st : ParseState ρ)
    (h : st.current ≤ st.total) :
    (appendMany st records).current = min (st.current + records.length) st.total ∧
    (appendMany st records).status = st.status ∧
    (appendMany st records).total = st.total ∧
    (appendMany st records).results = st.results ++ records.map Prod.fst := by
  induction records generalizing st with
  | nil =>
    refine ⟨?_, rfl, rfl, by simp [appendMany]⟩
    simp only [appendMany, List.foldl_nil, List.length_nil]
    omega
  | cons r rs ih =>
    have hstep : appendMany st (r :: rs) = appendMany (append_parse_result st r.1 r.2) rs := by
      simp [appendMany]
    have hc : (append_parse_result st r.1 r.2).current ≤
        (append_parse_result st r.1 r.2).total := by
      simp only [append_parse_result]
      omega
    obtain ⟨h1, h2, h3, h4⟩ := ih (append_parse_result st r.1 r.2) hc
    rw [hstep]
    refine ⟨?_, by rw [h2]; rfl, by rw [h3]; rfl, ?_⟩
    · rw [h1]
      simp only [append_parse_result, List.length_cons]
      push_cast
      omega
    · rw [h4]
      simp [append_parse_result]

/-- C8: after `begin(total)` with `total ≥ 0`, every `append` bumps
`current` by exactly one clamped at `total` and appends its record, so a
batch of `n` appends leaves `current = min n total`, status `"running"`,
and exactly the appended records; with `n = total` this means
`current = total` while still running, and a subsequent `complete` sets
status `"completed"` and `current = total`. -/
theorem parse_job_counters {ρ : Type} (st : ParseState ρ) (total : Int)
    (msg src : Option String) (now : String) (records : List (ρ × String))
    (cmsg : Option String) (now2 : String) (h : 0 ≤ total) :
    (∀ s : ParseState ρ, ∀ r nr,
      (append_parse_result s r nr).current = min (s.current + 1) s.total ∧
      (append_parse_result s r nr).results = s.results ++ [r]) ∧
    (appendMany (begin_parse st total msg src now) records).current =
      min (records.length : Int) total ∧
    (appendMany (begin_parse st total msg src now) records).status = "running" ∧
    (appendMany (begin_parse st total msg src now) records).total = total ∧
    (appendMany (begin_parse st total msg src now) records).results =
      records.map Prod.fst ∧
    (complete_parse (appendMany (begin_parse st total msg src now) records)
        cmsg now2).status = "completed" ∧
    (complete_parse (appendMany (begin_parse st total msg src now) records)
        cmsg now2).current = total := by
  have hc : (begin_parse st total msg src now).current ≤
      (begin_parse st total msg src now).total := by
    simp only [begin_parse]
    omega
  obtain ⟨h1, h2, h3, h4⟩ := appendMany_spec records (begin_parse st total msg src now) hc
  refine ⟨?_, ?_, ?_, ?_, ?_, ?_, ?_⟩
  · intro s r nr
    exact ⟨rfl, rfl⟩
  · rw [h1]; simp [begin_parse]
  · rw [h2]; rfl
  · rw [h3]; rfl
  · rw [h4]; simp [begin_parse]
  · simp [complete_parse]
  · have hcur : (complete_parse (appendMany (begin_parse st total msg src now) records)
        cmsg now2).current =
        (appendMany (begin_parse st total msg src now) records).total := rfl
    rw [hcur, h3]
    rfl

/-- C8 witness: `begin(5)` on the idle state followed by five appends
leaves `current = 5 = total` with status `"running"`, and `complete()`
then reports `"completed"` with `current = 5`. -/
theorem parse_job_counters_witness :
    (0 : Int) ≤ 5 ∧
    (appendMany (begin_parse (initialParseState (ρ := Nat)) 5 none none "t0")
      [(1, "t1"), (2, "t2"), (3, "t3"), (4, "t4"), (5, "t5")]).current = 5 ∧
    (appendMany (begin_parse (initialParseState (ρ := Nat)) 5 none none "t0")
      [(1, "t1"), (2, "t2"), (3, "t3"), (4, "t4"), (5, "t5")]).status = "running" ∧
    (complete_parse (appendMany (begin_parse (initialParseState (ρ := Nat)) 5 none none "t0")
      [(1, "t1"), (2, "t2"), (3, "t3"), (4, "t4"), (5, "t5")]) none "t6").status =
        "completed" ∧
    (complete_parse (appendMany (begin_parse (initialParseState (ρ := Nat)) 5 none none "t0")
      [(1, "t1"), (2, "t2"), (3, "t3"), (4, "t4"), (5, "t5")]) none "t6").current = 5 := by
  have h := parse_job_counters (initialParseState (ρ := Nat)) 5 none none "t0"
    [(1, "t1"), (2, "t2"), (3, "t3"), (4, "t4"), (5, "t5")] none "t6" (by decide)
  refine ⟨by decide, ?_, h.2.2.1, h.2.2.2.2.2.1, h.2.2.2.2.2.2⟩
  rw [h.2.1]
  decide

/-- Helper: fields of every outcome of `process_entry` name the processed
entry. -/
theorem process_entry_fields (cfg : CrawlCfg) (dl : DownloadSpec) (e : EntryRec)
    (fs : FS) : outcomeMatchesEntry (process_entry cfg dl e fs).1 e := by
  unfold outcomeMatchesEntry process_entry processDownload
  dsimp only
  repeat' split
  all_goals exact ⟨rfl, rfl, rfl⟩

/-- Helper: `processAll` yields one outcome per entry. -/
theorem processAll_length (cfg : CrawlCfg) (dl : EntryRec → DownloadSpec)
    (es : List EntryRec) (fs : FS) :
    (processAll cfg dl es fs).1.length = es.length := by
  induction es generalizing fs with
  | nil => rfl
  | cons e rest ih => simp [processAll, ih]

/-- Helper: the outcome at index `i` of `processAll` corresponds to the
entry at index `i`. -/
theorem processAll_get (cfg : CrawlCfg) (dl : EntryRec → DownloadSpec)
    (es : List EntryRec) (fs : FS) (i : Nat) (hi : i < es.length)
    (ho : i < (processAll cfg dl es fs).1.length) :
    outcomeMatchesEntry ((processAll cfg dl es fs).1.get ⟨i, ho⟩) (es.get ⟨i, hi⟩) := by
  induction es generalizing fs i with
  | nil => exact absurd hi (by simp)
  | cons e rest ih =>
    cases i with
    | zero =>
      simpa [processAll] using process_entry_fields cfg (dl e) e fs
    | succ n =>
      have hn : n < rest.length := by simpa using hi
      have ho2 : n < (processAll cfg dl rest (process_entry cfg (dl e) e fs).2).1.length := by
        rw [processAll_length]
        exact hn
      simpa [processAll] using ih (process_entry cfg (dl e) e fs).2 n hn ho2

/-- C5 counterexample: with `maxResults = 0` and `prefetchCap = 30` the
code requests `min(30, 1) = 1` entries, not `min(30, 0*3) = 0` — and the
claimed formula cannot be "at least 1" there either, so the claimed
prefetch size is wrong at `maxResults = 0`. -/
theorem crawl_prefetch_zero_max :
    (crawl sampleCfg (fun _ => Except.ok []) (fun _ => DownloadSpec.err "")
        "k" (2020, 2024) 0 []).1.requested =
      some { keywords := "k", year_range := "2020-2024", max_num := 0,
             prefetch_count := 1, total_found := 0 } ∧
    (1 : Int) ≠ min 30 (0 * 3) := by
  exact ⟨by decide, by decide⟩

set_option maxHeartbeats 1600000 in
/-- C5 (amended): the prefetch size is
`min(prefetchCap, maxResults * 3)` when `maxResults > 0` and
`min(prefetchCap, 1)` when `maxResults ≤ 0`, hence at least 1 whenever
`prefetchCap ≥ 1`; the fetched entries are filtered to published years in
`[startYear, endYear]` inclusive, then truncated to the first `maxResults`
entries; a successful run reports `success`, echoes the prefetch count and
the pre-truncation filtered count as `totalFound`, and returns exactly one
outcome per selected entry, in the order of the selected entries. -/
theorem crawl_selection_policy (cfg : CrawlCfg)
    (fetch : Int → Except String (List EntryRec)) (dl : EntryRec → DownloadSpec)
    (keywords : String) (yr : Int × Int) (max_num : Int) (fs : FS)
    (entries : List EntryRec) :
    (1 ≤ cfg.prefetch_cap →
      1 ≤ min cfg.prefetch_cap (if 0 < max_num then max_num * 3 else 1)) ∧
    (∀ en ∈ entries,
      en ∈ entries.filter
          (fun e2 => yr.1 ≤ e2.published.year && e2.published.year ≤ yr.2) ↔
        (yr.1 ≤ en.published.year ∧ en.published.year ≤ yr.2)) ∧
    (fetch (min cfg.prefetch_cap (if 0 < max_num then max_num * 3 else 1)) =
        Except.ok entries →
      (crawl cfg fetch dl keywords yr max_num fs).1.success = true ∧
      (crawl cfg fetch dl keywords yr max_num fs).1.requested =
        some { keywords := keywords,
               year_range := toString yr.1 ++ "-" ++ toString yr.2,
               max_num := max_num,
               prefetch_count :=
                 min cfg.prefetch_cap (if 0 < max_num then max_num * 3 else 1),
               total_found := (entries.filter
                 (fun e2 => yr.1 ≤ e2.published.year && e2.published.year ≤ yr.2)).length } ∧
      (crawl cfg fetch dl keywords yr max_num fs).1.results.length =
        (pySlice (entries.filter
          (fun e2 => yr.1 ≤ e2.published.year && e2.published.year ≤ yr.2)) max_num).length ∧
      ∀ i, ∀ hi : i < (pySlice (entries.filter
          (fun e2 => yr.1 ≤ e2.published.year && e2.published.year ≤ yr.2)) max_num).length,
        ∀ ho : i < (crawl cfg fetch dl keywords yr max_num fs).1.results.length,
        outcomeMatchesEntry
          ((crawl cfg fetch dl keywords yr max_num fs).1.results.get ⟨i, ho⟩)
          ((pySlice (entries.filter
            (fun e2 => yr.1 ≤ e2.published.year && e2.published.year ≤ yr.2)) max_num).get
            ⟨i, hi⟩)) := by
  refine ⟨?_, ?_, ?_⟩
  · intro hcap
    by_cases hm : 0 < max_num
    · simp only [if_pos hm]
      have : 1 ≤ max_num * 3 := by omega
      omega
    · simp only [if_neg hm]
      omega
  · intro en hen
    simp [List.mem_filter, hen]
  · intro hfetch
    refine ⟨?_, ?_, ?_, ?_⟩
    · simp [crawl, hfetch]
    · simp [crawl, hfetch]
    · simp only [crawl, hfetch]
      exact processAll_length cfg dl _ fs
    · intro i hi ho
      have ho2 : i < (processAll cfg dl (pySlice (entries.filter
          (fun e2 => yr.1 ≤ e2.published.year && e2.published.year ≤ yr.2)) max_num)
          fs).1.length := by
        simpa [crawl, hfetch] using ho
      have := processAll_get cfg dl (pySlice (entries.filter
        (fun e2 => yr.1 ≤ e2.published.year && e2.published.year ≤ yr.2)) max_num)
        fs i hi ho2
      simpa [crawl, hfetch] using this

/-- C5 witness: the selection policy applied to a run whose transport
returns one in-range entry and the download succeeds. -/
theorem crawl_selection_policy_witness :
    (1 : Int) ≤ 30 ∧
    (crawl sampleCfg (fun _ => Except.ok [sampleEntry])
        (fun _ => DownloadSpec.ok "application/pdf" [8] none none)
        "k" (2020, 2024) 2 []).1.success = true := by
  have h := (crawl_selection_policy sampleCfg (fun _ => Except.ok [sampleEntry])
    (fun _ => DownloadSpec.ok "application/pdf" [8] none none)
    "k" (2020, 2024) 2 [] [sampleEntry]).2.2 rfl
  exact ⟨by decide, h.1⟩

/-- Helper: with `max_num = 0` a single crawl never selects an entry, so
its result list is empty whatever the transport does. -/
theorem crawl_zero_max_results (cfg : CrawlCfg)
    (fetch : Int → Except String (List EntryRec)) (dl : EntryRec → DownloadSpec)
    (keywords : String) (yr : Int × Int) (fs : FS) :
    (crawl cfg fetch dl keywords yr 0 fs).1.results = [] := by
  unfold crawl
  have h1 : (if (0 : Int) < 0 then (0 : Int) * 3 else 1) = 1 := by norm_num
  rw [h1]
  cases hf : fetch (min cfg.prefetch_cap 1) with
  | error e => simp [hf]
  | ok entries => simp [hf, pySlice, processAll]

/-- Helper: the keyword loop with `max_num = 0` never grows the
aggregated result list. -/
theorem crawlListAux_zero_agg (cfg : CrawlCfg)
    (fetchFor : String → Int → Except String (List EntryRec))
    (dl : EntryRec → DownloadSpec) (yr : Int × Int) (kws : List String)
    (agg : List Outcome) (seen fails : List String) (fs : FS) :
    (crawlListAux cfg fetchFor dl yr 0 kws agg seen fails fs).1 = agg := by
  induction kws generalizing agg seen fails fs with
  | nil => rfl
  | cons kw rest ih =>
    have hsub : subMaxNum 0 (remainingOf 0 agg) = 0 := by simp [subMaxNum, remainingOf]
    have hres := crawl_zero_max_results cfg (fetchFor kw) dl kw yr fs
    by_cases hs : (crawl cfg (fetchFor kw) dl kw yr 0 fs).1.success
    · simp [crawlListAux, hsub, hs, hres, dedupFold, ih]
    · simp [crawlListAux, hsub, hs, hres, dedupFold, ih]

/-- Helper: the identity key is the version id whenever that is
non-empty. -/
theorem uniqueIdOf_of_id_ne (o : Outcome) (h : o.id_with_version ≠ "") :
    uniqueIdOf o = o.id_with_version := by
  simp [uniqueIdOf, h]

/-- Helper: the dedup fold preserves "every aggregated key is seen" and
"aggregated keys are pairwise distinct". -/
theorem dedupFold_inv (items agg : List Outcome) (seen : List String)
    (hseen : ∀ o ∈ agg, uniqueIdOf o ∈ seen)
    (hpw : agg.Pairwise (fun a b => uniqueIdOf a ≠ uniqueIdOf b)) :
    (∀ o ∈ (dedupFold agg seen items).1, uniqueIdOf o ∈ (dedupFold agg seen items).2) ∧
    (dedupFold agg seen items).1.Pairwise (fun a b => uniqueIdOf a ≠ uniqueIdOf b) := by
  induction items generalizing agg seen with
  | nil => exact ⟨hseen, hpw⟩
  | cons item rest ih =>
    by_cases hmem : uniqueIdOf item ∈ seen
    · simpa [dedupFold, hmem] using ih agg seen hseen hpw
    · have hseen2 : ∀ o ∈ agg ++ [item], uniqueIdOf o ∈ uniqueIdOf item :: seen := by
        intro o ho
        rcases List.mem_append.mp ho with ho1 | ho2
        · exact List.mem_cons_of_mem _ (hseen o ho1)
        · simp only [List.mem_singleton] at ho2
          subst ho2
          exact List.mem_cons_self _ _
      have hpw2 : (agg ++ [item]).Pairwise (fun a b => uniqueIdOf a ≠ uniqueIdOf b) := by
        rw [List.pairwise_append]
        refine ⟨hpw, List.pairwise_singleton _ _, ?_⟩
        intro a ha b hb
        simp only [List.mem_singleton] at hb
        subst hb
        intro hEq
        exact hmem (hEq ▸ hseen a ha)
      simpa [dedupFold, hmem] using ih (agg ++ [item]) (uniqueIdOf item :: seen) hseen2 hpw2

/-- Helper: the keyword loop keeps the aggregated identity keys pairwise
distinct. -/
theorem crawlListAux_pairwise (cfg : CrawlCfg)
    (fetchFor : String → Int → Except String (List EntryRec))
    (dl : EntryRec → DownloadSpec) (yr : Int × Int) (max_num : Int)
    (kws : List String) (agg : List Outcome) (seen fails : List String) (fs : FS)
    (hseen : ∀ o ∈ agg, uniqueIdOf o ∈ seen)
    (hpw : agg.Pairwise (fun a b => uniqueIdOf a ≠ uniqueIdOf b)) :
    (crawlListAux cfg fetchFor dl yr max_num kws agg seen fails fs).1.Pairwise
      (fun a b => uniqueIdOf a ≠ uniqueIdOf b) := by
  induction kws generalizing agg seen fails fs with
  | nil => exact hpw
  | cons kw rest ih =>
    by_cases hbreak : max_num ≠ 0 ∧ remainingOf max_num agg ≤ 0
    · simpa [crawlListAux, hbreak] using hpw
    · by_cases hsucc : (crawl cfg (fetchFor kw) dl kw yr
          (subMaxNum max_num (remainingOf max_num agg)) fs).1.success
      · have hinv := dedupFold_inv
          (crawl cfg (fetchFor kw) dl kw yr
            (subMaxNum max_num (remainingOf max_num agg)) fs).1.results
          agg seen hseen hpw
        by_cases hstop : max_num ≠ 0 ∧ max_num ≤
            (((dedupFold agg seen (crawl cfg (fetchFor kw) dl kw yr
              (subMaxNum max_num (remainingOf max_num agg)) fs).1.results).1.length : Int))
        · have hR : ¬(remainingOf max_num agg ≤ 0) := fun hR => hbreak ⟨hstop.1, hR⟩
          simpa [crawlListAux, hbreak, hsucc, hstop, hR] using hinv.2
        · simpa [crawlListAux, hbreak, hsucc, hstop] using
            ih _ _ fails _ hinv.1 hinv.2
      · simpa [crawlListAux, hbreak, hsucc] using ih agg seen _ _ hseen hpw

/-- Helper: in a list with pairwise-distinct identity keys, at most one
element carries any given non-empty `id_with_version`. -/
theorem pairwise_filter_id_le_one (l : List Outcome)
    (hl : l.Pairwise (fun a b => uniqueIdOf a ≠ uniqueIdOf b))
    (v : String) (hv : v ≠ "") :
    (l.filter (fun o => o.id_with_version = v)).length ≤ 1 := by
  induction l with
  | nil => simp
  | cons a l ih =>
    rw [List.pairwise_cons] at hl
    by_cases hpa : a.id_with_version = v
    · have hfl : l.filter (fun o => o.id_with_version = v) = [] := by
        rw [List.filter_eq_nil_iff]
        intro b hb
        simp only [decide_eq_true_eq]
        intro hbv
        have hua : uniqueIdOf a = v := by
          rw [uniqueIdOf_of_id_ne a (by rw [hpa]; exact hv), hpa]
        have hub : uniqueIdOf b = v := by
          rw [uniqueIdOf_of_id_ne b (by rw [hbv]; exact hv), hbv]
        exact hl.1 b hb (hua.trans hub.symm)
      simp [List.filter_cons, hpa, hfl]
    · simpa [List.filter_cons, hpa] using ih hl.2

/-- C3: aggregation over a keyword list deduplicates by the identity key
(`id_with_version`, falling back to file name, then title), so the
aggregated results contain at most one outcome per non-empty
`id_with_version`; the aggregate `success` is true iff at least one result
was collected; `error` is the semicolon-joined failure list, present
exactly when the keyword loop accumulated a failure; and a keyword whose
sub-run fails appends `"kw: reason"` to the failures and continues with
the next keyword. -/
theorem crawl_with_keyword_list_aggregate (cfg : CrawlCfg)
    (fetchFor : String → Int → Except String (List EntryRec))
    (dl : EntryRec → DownloadSpec) (keyword_list : List String) (yr : Int × Int)
    (max_num : Int) (fs : FS) :
    ((crawl_with_keyword_list cfg fetchFor dl keyword_list yr max_num fs).1.success = true ↔
      (crawl_with_keyword_list cfg fetchFor dl keyword_list yr max_num fs).1.results ≠ []) ∧
    (∀ v : String, v ≠ "" →
      ((crawl_with_keyword_list cfg fetchFor dl keyword_list yr max_num fs).1.results.filter
        (fun o => o.id_with_version = v)).length ≤ 1) ∧
    (((keyword_list.map pyStrip).filter (fun k => !(k = "" : Bool))).isEmpty = false →
      (crawl_with_keyword_list cfg fetchFor dl keyword_list yr max_num fs).1.error =
        (if (crawlListAux cfg fetchFor dl yr max_num
              ((keyword_list.map pyStrip).filter (fun k => !(k = "" : Bool)))
              [] [] [] fs).2.1.isEmpty
          then none
          else some (String.intercalate "; " (crawlListAux cfg fetchFor dl yr max_num
              ((keyword_list.map pyStrip).filter (fun k => !(k = "" : Bool)))
              [] [] [] fs).2.1))) ∧
    (∀ kw rest agg seen fails fs1,
      ¬(max_num ≠ 0 ∧ remainingOf max_num agg ≤ 0) →
      (crawl cfg (fetchFor kw) dl kw yr (subMaxNum max_num (remainingOf max_num agg))
        fs1).1.success = false →
      crawlListAux cfg fetchFor dl yr max_num (kw :: rest) agg seen fails fs1 =
        crawlListAux cfg fetchFor dl yr max_num rest agg seen
          (fails ++ [kw ++ ": " ++ failureReasonOf
            (crawl cfg (fetchFor kw) dl kw yr
              (subMaxNum max_num (remainingOf max_num agg)) fs1).1.error])
          (crawl cfg (fetchFor kw) dl kw yr
            (subMaxNum max_num (remainingOf max_num agg)) fs1).2) := by
  refine ⟨?_, ?_, ?_, ?_⟩
  · by_cases hk : ((keyword_list.map pyStrip).filter (fun k => !(k = "" : Bool))).isEmpty
    · simp [crawl_with_keyword_list, hk]
    · rcases hx : crawlListAux cfg fetchFor dl yr max_num
          ((keyword_list.map pyStrip).filter (fun k => !(k = "" : Bool))) [] [] [] fs
        with ⟨agg, fl, fs2⟩
      simp only [crawl_with_keyword_list, Bool.not_eq_true] at hk ⊢
      rw [if_neg (by simp [hk]), hx]
      cases agg <;> simp
  · intro v hv
    by_cases hk : ((keyword_list.map pyStrip).filter (fun k => !(k = "" : Bool))).isEmpty
    · simp [crawl_with_keyword_list, hk]
    · have hpw := crawlListAux_pairwise cfg fetchFor dl yr max_num
        ((keyword_list.map pyStrip).filter (fun k => !(k = "" : Bool))) [] [] [] fs
        (by intro o ho; exact absurd ho (by simp)) (List.Pairwise.nil)
      have hres : (crawl_with_keyword_list cfg fetchFor dl keyword_list yr max_num
          fs).1.results = (crawlListAux cfg fetchFor dl yr max_num
          ((keyword_list.map pyStrip).filter (fun k => !(k = "" : Bool))) [] [] [] fs).1 := by
        simp only [crawl_with_keyword_list]
        rw [if_neg (by simp [hk])]
      rw [hres]
      exact pairwise_filter_id_le_one _ hpw v hv
  · intro hk
    simp only [crawl_with_keyword_list]
    rw [if_neg (by simp [hk])]
  · intro kw rest agg seen fails fs1 hbreak hfail
    simp only [crawlListAux]
    rw [if_neg hbreak, hfail]
    simp

/-- C3 witness: two keywords both returning the same entry (whose
download fails, so outcomes still carry its `id_with_version`) contribute
exactly one aggregated outcome for that id. -/
theorem crawl_with_keyword_list_aggregate_witness :
    ("2101.00001v1" : String) ≠ "" ∧
    ((crawl_with_keyword_list sampleCfg (fun _ _ => Except.ok [sampleEntry])
        (fun _ => DownloadSpec.err "boom") ["a", "b"] (2020, 2024) 5 []).1.results.filter
      (fun o => o.id_with_version = "2101.00001v1")).length ≤ 1 ∧
    ((crawl_with_keyword_list sampleCfg (fun _ _ => Except.ok [sampleEntry])
        (fun _ => DownloadSpec.err "boom") ["a", "b"] (2020, 2024) 5 []).1.results.filter
      (fun o => o.id_with_version = "2101.00001v1")).length = 1 := by
  refine ⟨by decide, ?_, by decide⟩
  exact (crawl_with_keyword_list_aggregate sampleCfg (fun _ _ => Except.ok [sampleEntry])
    (fun _ => DownloadSpec.err "boom") ["a", "b"] (2020, 2024) 5 []).2.1
    "2101.00001v1" (by decide)

/-- Helper: lookup after cons. -/
theorem fsLookup_cons (p : String × List Nat) (fs : FS) (m : String) :
    fsLookup (p :: fs) m = if p.1 = m then some p.2 else fsLookup fs m := by
  by_cases h : p.1 = m
  · rw [if_pos h]
    simp [fsLookup, List.find?_cons_of_pos, h]
  · rw [if_neg h]
    simp only [fsLookup]
    rw [List.find?_cons_of_neg]
    simpa using h

/-- Helper: erasing a name removes it. -/
theorem fsLookup_erase_self (fs : FS) (n : String) : fsLookup (fsErase fs n) n = none := by
  induction fs with
  | nil => rfl
  | cons p fs ih =>
    simp only [fsErase, List.filter_cons] at ih ⊢
    by_cases h : p.1 = n
    · rw [if_neg (by simp [h])]
      exact ih
    · rw [if_pos (by simp [h]), fsLookup_cons, if_neg h]
      exact ih

/-- Helper: erasing another name does not change a lookup. -/
theorem fsLookup_erase_ne (fs : FS) (n m : String) (h : m ≠ n) :
    fsLookup (fsErase fs n) m = fsLookup fs m := by
  induction fs with
  | nil => rfl
  | cons p fs ih =>
    simp only [fsErase, List.filter_cons] at ih ⊢
    by_cases h1 : p.1 = n
    · rw [if_neg (by simp [h1])]
      rw [fsLookup_cons p fs m, if_neg (show ¬ p.1 = m by rw [h1]; exact fun hc => h hc.symm)]
      exact ih
    · rw [if_pos (by simp [h1]), fsLookup_cons, fsLookup_cons]
      by_cases h2 : p.1 = m
      · rw [if_pos h2, if_pos h2]
      · rw [if_neg h2, if_neg h2]
        exact ih

/-- Helper: lookup distributes over append when absent on the left. -/
theorem fsLookup_append_of_none (l1 l2 : FS) (m : String) (h : fsLookup l1 m = none) :
    fsLookup (l1 ++ l2) m = fsLookup l2 m := by
  induction l1 with
  | nil => rfl
  | cons p l1 ih =>
    rw [fsLookup_cons] at h
    rw [List.cons_append, fsLookup_cons]
    by_cases h2 : p.1 = m
    · rw [if_pos h2] at h
      exact absurd h (by simp)
    · rw [if_neg h2] at h ⊢
      exact ih h

/-- Helper: lookup distributes over append when present on the left. -/
theorem fsLookup_append_of_some (l1 l2 : FS) (m : String) (v : List Nat)
    (h : fsLookup l1 m = some v) : fsLookup (l1 ++ l2) m = some v := by
  induction l1 with
  | nil => exact absurd h (by simp [fsLookup])
  | cons p l1 ih =>
    rw [fsLookup_cons] at h
    rw [List.cons_append, fsLookup_cons]
    by_cases h2 : p.1 = m
    · rw [if_pos h2] at h ⊢
      exact h
    · rw [if_neg h2] at h ⊢
      exact ih h

/-- Helper: lookup of a freshly written file. -/
theorem fsLookup_insert_self (fs : FS) (n : String) (w : List Nat) :
    fsLookup (fsInsert fs n w) n = some w := by
  unfold fsInsert
  rw [fsLookup_append_of_none _ _ _ (fsLookup_erase_self fs n)]
  rw [show ([(n, w)] : FS) = (n, w) :: [] from rfl, fsLookup_cons, if_pos rfl]

/-- Helper: writing a file does not change other lookups. -/
theorem fsLookup_insert_ne (fs : FS) (n m : String) (w : List Nat) (h : m ≠ n) :
    fsLookup (fsInsert fs n w) m = fsLookup fs m := by
  unfold fsInsert
  rcases hv : fsLookup (fsErase fs n) m with _ | v
  · rw [fsLookup_append_of_none _ _ _ hv]
    rw [show ([(n, w)] : FS) = (n, w) :: [] from rfl, fsLookup_cons,
      if_neg (fun hc => h hc.symm)]
    rw [← fsLookup_erase_ne fs n m h, hv]
    rfl
  · rw [fsLookup_append_of_some _ _ _ _ hv, ← fsLookup_erase_ne fs n m h, hv]

/-- Helper: a name absent from the store stays absent under batch
erasure. -/
theorem fsLookup_foldl_erase_none (names : List String) (fs : FS) (n : String)
    (h : fsLookup fs n = none) :
    fsLookup (names.foldl (fun acc m => fsErase acc m) fs) n = none := by
  induction names generalizing fs with
  | nil => exact h
  | cons m names ih =>
    simp only [List.foldl_cons]
    apply ih
    by_cases hm : n = m
    · rw [hm]
      exact fsLookup_erase_self fs m
    · rw [fsLookup_erase_ne fs m n hm]
      exact h

/-- Helper: every erased name is gone after the batch erasure. -/
theorem fsLookup_foldl_erase_mem (names : List String) (fs : FS) (n : String)
    (h : n ∈ names) :
    fsLookup (names.foldl (fun acc m => fsErase acc m) fs) n = none := by
  induction names generalizing fs with
  | nil => exact absurd h (by simp)
  | cons m names ih =>
    simp only [List.foldl_cons]
    rcases List.mem_cons.mp h with h1 | h2
    · apply fsLookup_foldl_erase_none
      rw [h1]
      exact fsLookup_erase_self fs m
    · exact ih _ h2

/-- Helper: a name outside the erased batch keeps its lookup. -/
theorem fsLookup_foldl_erase_not_mem (names : List String) (fs : FS) (n : String)
    (h : n ∉ names) :
    fsLookup (names.foldl (fun acc m => fsErase acc m) fs) n = fsLookup fs n := by
  induction names generalizing fs with
  | nil => rfl
  | cons m names ih =>
    simp only [List.foldl_cons]
    have hn : n ∉ names := fun hc => h (List.mem_cons_of_mem _ hc)
    have hm : n ≠ m := fun hc => h (hc ▸ List.mem_cons_self _ _)
    rw [ih _ hn, fsLookup_erase_ne fs m n hm]

/-- Helper: a string with a non-empty left part is non-empty. -/
theorem append_left_ne_empty (s t : String) (h : s ≠ "") : s ++ t ≠ "" := by
  intro hc
  have hlen : (s ++ t).length = 0 := by rw [hc]; rfl
  rw [String.length_append] at hlen
  have hs : s.length = 0 := by omega
  have hd : s.data = [] := List.length_eq_zero.mp hs
  exact h (String.ext hd)

/-- Helper: the temp name differs from the published name (it is one
character longer). -/
theorem tempName_ne (f : String) (h4 : 4 ≤ f.length) : tempName f ≠ f := by
  intro hc
  have hlen : (tempName f).length = f.length + 1 := by
    unfold tempName
    rw [String.length_append, length_asString, List.length_take]
    have hdata : f.toList.length = f.length := rfl
    rw [hdata, Nat.min_eq_left (Nat.sub_le _ _)]
    have h5 : (".part" : String).length = 5 := rfl
    omega
  rw [hc] at hlen
  omega

/-- Helper: every built file name carries the 4-character extension. -/
theorem filenameOf_length (cfg : CrawlCfg) (e : EntryRec) :
    4 ≤ (filenameOf cfg e).length := by
  unfold filenameOf build_filename
  rw [String.length_append]
  have h4 : (".pdf" : String).length = 4 := rfl
  omega

/-- Helper: equation of the transport-error branch of the pipeline. -/
theorem pd_err_eq (cfg : CrawlCfg) (m : String) (e : EntryRec)
    (filename temp relative : String) (fsp : FS) :
    processDownload cfg (DownloadSpec.err m) e filename temp relative fsp =
      (failedOutcome e m, fsErase fsp temp) := rfl

/-- Helper: equation of the bad-content-type branch. -/
theorem pd_badct_eq (cfg : CrawlCfg) (ct : String) (chunks : List Nat)
    (wf : Option (Nat × String)) (rf : Option String) (e : EntryRec)
    (filename temp relative : String) (fsp : FS)
    (hct : strContains (pyLower ct) "pdf" = false) :
    processDownload cfg (DownloadSpec.ok ct chunks wf rf) e filename temp relative fsp =
      (failedOutcome e ("返回类型异常: " ++ pyLower ct), fsErase fsp temp) := by
  have hcond : (!strContains (pyLower ct) "pdf") = true := by rw [hct]; rfl
  simp only [processDownload]
  rw [if_pos hcond]

/-- Helper: equation of the mid-stream write-failure branch. -/
theorem pd_writefail_eq (cfg : CrawlCfg) (ct : String) (chunks : List Nat)
    (k : Nat) (m : String) (rf : Option String) (e : EntryRec)
    (filename temp relative : String) (fsp : FS)
    (hct : strContains (pyLower ct) "pdf" = true) :
    processDownload cfg (DownloadSpec.ok ct chunks (some (k, m)) rf) e
        filename temp relative fsp =
      (failedOutcome e m,
        fsErase (fsInsert fsp temp ((chunks.filter (fun c => c ≠ 0)).take k)) temp) := by
  have hcond : ¬ ((!strContains (pyLower ct) "pdf") = true) := by rw [hct]; simp
  simp only [processDownload]
  rw [if_neg hcond]

/-- Helper: equation of the undersized-payload branch. -/
theorem pd_sizefail_eq (cfg : CrawlCfg) (ct : String) (chunks : List Nat)
    (rf : Option String) (e : EntryRec) (filename temp relative : String) (fsp : FS)
    (hct : strContains (pyLower ct) "pdf" = true)
    (hsz : payloadSize (chunks.filter (fun c => c ≠ 0)) ≤ cfg.min_pdf_size_bytes) :
    processDownload cfg (DownloadSpec.ok ct chunks none rf) e filename temp relative fsp =
      (failedOutcome e "下载的文件大小异常",
        fsErase (fsInsert fsp temp (chunks.filter (fun c => c ≠ 0))) temp) := by
  have hcond : ¬ ((!strContains (pyLower ct) "pdf") = true) := by rw [hct]; simp
  simp only [processDownload]
  rw [if_neg hcond, if_pos hsz]

/-- Helper: equation of the rename-failure branch. -/
theorem pd_renamefail_eq (cfg : CrawlCfg) (ct : String) (chunks : List Nat)
    (m : String) (e : EntryRec) (filename temp relative : String) (fsp : FS)
    (hct : strContains (pyLower ct) "pdf" = true)
    (hsz : ¬ payloadSize (chunks.filter (fun c => c ≠ 0)) ≤ cfg.min_pdf_size_bytes) :
    processDownload cfg (DownloadSpec.ok ct chunks none (some m)) e
        filename temp relative fsp =
      (failedOutcome e m,
        fsErase (fsInsert fsp temp (chunks.filter (fun c => c ≠ 0))) temp) := by
  have hcond : ¬ ((!strContains (pyLower ct) "pdf") = true) := by rw [hct]; simp
  simp only [processDownload]
  rw [if_neg hcond, if_neg hsz]

/-- Helper: equation of the successful publish branch. -/
theorem pd_publish_eq (cfg : CrawlCfg) (ct : String) (chunks : List Nat)
    (e : EntryRec) (filename temp relative : String) (fsp : FS)
    (hct : strContains (pyLower ct) "pdf" = true)
    (hsz : ¬ payloadSize (chunks.filter (fun c => c ≠ 0)) ≤ cfg.min_pdf_size_bytes) :
    processDownload cfg (DownloadSpec.ok ct chunks none none) e
        filename temp relative fsp =
      (successOutcome e
        (if ((find_existing_versions fsp e.base_id).filter
            (fun n => !(n = filename : Bool))).isEmpty
          then "downloaded" else "replaced_old_version") filename relative,
       ((find_existing_versions fsp e.base_id).filter
          (fun n => !(n = filename : Bool))).foldl (fun acc n => fsErase acc n)
        (fsInsert (fsErase (fsInsert fsp temp (chunks.filter (fun c => c ≠ 0))) temp)
          filename (chunks.filter (fun c => c ≠ 0)))) := by
  have hcond : ¬ ((!strContains (pyLower ct) "pdf") = true) := by rw [hct]; simp
  simp only [processDownload]
  rw [if_neg hcond, if_neg hsz]

/-- Helper: master case analysis of the `try` block of `process_entry`
under the preconditions that the target name is absent from the incoming
store and differs from the temp name. -/
theorem processDownload_spec (cfg : CrawlCfg) (dl : DownloadSpec) (e : EntryRec)
    (filename temp relative : String) (fsp : FS)
    (hfile : fsLookup fsp filename = none) (htemp : temp ≠ filename)
    (out : Outcome) (fs2 : FS)
    (heq : processDownload cfg dl e filename temp relative fsp = (out, fs2)) :
    (out.status = "failed" → fsLookup fs2 temp = none ∧
      (DownloadMsgsNonEmpty dl → ∃ r, out.reason = some r ∧ r ≠ "")) ∧
    (fsLookup fs2 filename = none ∨
      ∃ w, fsLookup fs2 filename = some w ∧ cfg.min_pdf_size_bytes < payloadSize w) ∧
    (out.status = "downloaded" ∨ out.status = "replaced_old_version" →
      ∃ ct chunks, dl = DownloadSpec.ok ct chunks none none ∧
        strContains (pyLower ct) "pdf" = true ∧
        fsLookup fs2 filename = some (chunks.filter (fun c => c ≠ 0)) ∧
        cfg.min_pdf_size_bytes < payloadSize (chunks.filter (fun c => c ≠ 0)) ∧
        (∀ n ∈ (find_existing_versions fsp e.base_id).filter
            (fun n => !(n = filename : Bool)), fsLookup fs2 n = none) ∧
        (out.status = "replaced_old_version" ↔
          (find_existing_versions fsp e.base_id).filter
            (fun n => !(n = filename : Bool)) ≠ [])) ∧
    (out.status = "failed" ∨ out.status = "downloaded" ∨
      out.status = "replaced_old_version") := by
  have hfne : filename ≠ temp := fun hc => htemp hc.symm
  have hlook_erase : fsLookup (fsErase fsp temp) filename = none := by
    rw [fsLookup_erase_ne fsp temp filename hfne]
    exact hfile
  have hlook_erase_insert : ∀ w : List Nat,
      fsLookup (fsErase (fsInsert fsp temp w) temp) filename = none := by
    intro w
    rw [fsLookup_erase_ne _ temp filename hfne, fsLookup_insert_ne fsp temp filename w hfne]
    exact hfile
  rcases dl with m | ⟨ct, chunks, wf, rf⟩
  · rw [pd_err_eq] at heq
    injection heq with ho hf
    subst ho
    subst hf
    refine ⟨?_, Or.inl hlook_erase, ?_, Or.inl rfl⟩
    · intro _
      exact ⟨fsLookup_erase_self fsp temp, fun hne => ⟨m, rfl, hne⟩⟩
    · intro h
      rcases h with h | h <;> simp [failedOutcome] at h
  · by_cases hct : strContains (pyLower ct) "pdf"
    · cases wf with
      | some km =>
        rcases km with ⟨k, m⟩
        rw [pd_writefail_eq cfg ct chunks k m rf e filename temp relative fsp hct] at heq
        injection heq with ho hf
        subst ho
        subst hf
        refine ⟨?_, Or.inl (hlook_erase_insert _), ?_, Or.inl rfl⟩
        · intro _
          exact ⟨fsLookup_erase_self _ temp, fun hne => ⟨m, rfl, hne.1 k m rfl⟩⟩
        · intro h
          rcases h with h | h <;> simp [failedOutcome] at h
      | none =>
        by_cases hsz : payloadSize (chunks.filter (fun c => c ≠ 0)) ≤ cfg.min_pdf_size_bytes
        · rw [pd_sizefail_eq cfg ct chunks rf e filename temp relative fsp hct hsz] at heq
          injection heq with ho hf
          subst ho
          subst hf
          refine ⟨?_, Or.inl (hlook_erase_insert _), ?_, Or.inl rfl⟩
          · intro _
            exact ⟨fsLookup_erase_self _ temp, fun _ => ⟨"下载的文件大小异常", rfl, by decide⟩⟩
          · intro h
            rcases h with h | h <;> simp [failedOutcome] at h
        · cases rf with
          | some m =>
            rw [pd_renamefail_eq cfg ct chunks m e filename temp relative fsp hct hsz] at heq
            injection heq with ho hf
            subst ho
            subst hf
            refine ⟨?_, Or.inl (hlook_erase_insert _), ?_, Or.inl rfl⟩
            · intro _
              exact ⟨fsLookup_erase_self _ temp, fun hne => ⟨m, rfl, hne.2 m rfl⟩⟩
            · intro h
              rcases h with h | h <;> simp [failedOutcome] at h
          | none =>
            rw [pd_publish_eq cfg ct chunks e filename temp relative fsp hct hsz] at heq
            have hfnotin : filename ∉ (find_existing_versions fsp e.base_id).filter
                (fun n => !(n = filename : Bool)) := by
              intro hm
              rcases List.mem_filter.mp hm with ⟨_, hp⟩
              simp at hp
            have hbase : fsLookup
                (((find_existing_versions fsp e.base_id).filter
                    (fun n => !(n = filename : Bool))).foldl (fun acc n => fsErase acc n)
                  (fsInsert (fsErase (fsInsert fsp temp (chunks.filter (fun c => c ≠ 0)))
                    temp) filename (chunks.filter (fun c => c ≠ 0))))
                filename = some (chunks.filter (fun c => c ≠ 0)) := by
              rw [fsLookup_foldl_erase_not_mem _ _ _ hfnotin]
              exact fsLookup_insert_self _ filename _
            rcases hex : (find_existing_versions fsp e.base_id).filter
                (fun n => !(n = filename : Bool)) with _ | ⟨a, tl⟩
            · rw [hex] at heq hbase
              injection heq with ho hf
              subst ho
              subst hf
              refine ⟨?_, ?_, ?_, Or.inr (Or.inl rfl)⟩
              · intro h
                simp [successOutcome] at h
              · exact Or.inr ⟨chunks.filter (fun c => c ≠ 0), hbase,
                  Nat.lt_of_not_le hsz⟩
              · intro _
                refine ⟨ct, chunks, rfl, hct, hbase, Nat.lt_of_not_le hsz, ?_, ?_⟩
                · intro n hn
                  exact absurd hn (by simp)
                · simp [successOutcome]
            · rw [hex] at heq hbase
              injection heq with ho hf
              subst ho
              subst hf
              refine ⟨?_, ?_, ?_, Or.inr (Or.inr rfl)⟩
              · intro h
                simp [successOutcome] at h
              · exact Or.inr ⟨chunks.filter (fun c => c ≠ 0), hbase,
                  Nat.lt_of_not_le hsz⟩
              · intro _
                refine ⟨ct, chunks, rfl, hct, hbase, Nat.lt_of_not_le hsz, ?_, ?_⟩
                · intro n hn
                  exact fsLookup_foldl_erase_mem _ _ _ hn
                · simp [successOutcome]
    · rw [pd_badct_eq cfg ct chunks wf rf e filename temp relative fsp
        (by simpa using hct)] at heq
      injection heq with ho hf
      subst ho
      subst hf
      refine ⟨?_, Or.inl hlook_erase, ?_, Or.inl rfl⟩
      · intro _
        refine ⟨fsLookup_erase_self fsp temp, fun _ => ⟨"返回类型异常: " ++ pyLower ct, rfl, ?_⟩⟩
        exact append_left_ne_empty _ _ (by decide)
      · intro h
        rcases h with h | h <;> simp [failedOutcome] at h

/-- C2: whenever the per-entry pipeline fails, the temp `.part` file is
absent from the resulting store and the outcome is `failed` with a
non-empty reason (granted the injected error messages are non-empty, as
`str(exc)` of the pipeline's exceptions is); the final path is only ever
absent or bound to a fully validated payload, and a successful publish
binds it to the complete downloaded chunk stream, whose size exceeds the
minimum, via the rename; the outcome always carries one of the four
statuses, so the batch loop continues past failures. -/
theorem process_entry_failure_handling (cfg : CrawlCfg) (dl : DownloadSpec)
    (e : EntryRec) (fs : FS) (out : Outcome) (fs2 : FS)
    (heq : process_entry cfg dl e fs = (out, fs2)) :
    (out.status = "failed" →
      fsLookup fs2 (tempName (filenameOf cfg e)) = none ∧
      (DownloadMsgsNonEmpty dl → ∃ r, out.reason = some r ∧ r ≠ "")) ∧
    (fsLookup fs2 (filenameOf cfg e) = none ∨
      ∃ w, fsLookup fs2 (filenameOf cfg e) = some w ∧
        cfg.min_pdf_size_bytes < payloadSize w) ∧
    (out.status = "downloaded" ∨ out.status = "replaced_old_version" →
      ∃ ct chunks, dl = DownloadSpec.ok ct chunks none none ∧
        strContains (pyLower ct) "pdf" = true ∧
        fsLookup fs2 (filenameOf cfg e) = some (chunks.filter (fun c => c ≠ 0)) ∧
        cfg.min_pdf_size_bytes < payloadSize (chunks.filter (fun c => c ≠ 0))) ∧
    (out.status = "already_exists" → fs2 = fs) ∧
    (out.status = "failed" ∨ out.status = "already_exists" ∨
      out.status = "downloaded" ∨ out.status = "replaced_old_version") := by
  have htemp := tempName_ne (filenameOf cfg e) (filenameOf_length cfg e)
  unfold process_entry at heq
  dsimp only at heq
  rcases hl : fsLookup fs (filenameOf cfg e) with _ | content
  · rw [hl] at heq
    dsimp only at heq
    have spec := processDownload_spec cfg dl e (filenameOf cfg e)
      (tempName (filenameOf cfg e)) ("pdf_files/" ++ filenameOf cfg e) fs hl htemp
      out fs2 heq
    refine ⟨spec.1, spec.2.1, ?_, ?_, ?_⟩
    · intro h
      obtain ⟨ct, chunks, h1, h2, h3, h4, _, _⟩ := spec.2.2.1 h
      exact ⟨ct, chunks, h1, h2, h3, h4⟩
    · intro h
      rcases spec.2.2.2 with hs | hs | hs <;> (rw [h] at hs; simp at hs)
    · rcases spec.2.2.2 with hs | hs | hs
      · exact Or.inl hs
      · exact Or.inr (Or.inr (Or.inl hs))
      · exact Or.inr (Or.inr (Or.inr hs))
  · rw [hl] at heq
    dsimp only at heq
    by_cases hgt : payloadSize content > cfg.min_pdf_size_bytes
    · rw [if_pos hgt] at heq
      injection heq with ho hf
      subst ho
      subst hf
      refine ⟨?_, Or.inr ⟨content, hl, hgt⟩, ?_, fun _ => rfl, Or.inr (Or.inl rfl)⟩
      · intro h
        simp [successOutcome] at h
      · intro h
        rcases h with h | h <;> simp [successOutcome] at h
    · rw [if_neg hgt] at heq
      have spec := processDownload_spec cfg dl e (filenameOf cfg e)
        (tempName (filenameOf cfg e)) ("pdf_files/" ++ filenameOf cfg e)
        (fsErase fs (filenameOf cfg e)) (fsLookup_erase_self fs (filenameOf cfg e))
        htemp out fs2 heq
      refine ⟨spec.1, spec.2.1, ?_, ?_, ?_⟩
      · intro h
        obtain ⟨ct, chunks, h1, h2, h3, h4, _, _⟩ := spec.2.2.1 h
        exact ⟨ct, chunks, h1, h2, h3, h4⟩
      · intro h
        rcases spec.2.2.2 with hs | hs | hs <;> (rw [h] at hs; simp at hs)
      · rcases spec.2.2.2 with hs | hs | hs
        · exact Or.inl hs
        · exact Or.inr (Or.inr (Or.inl hs))
        · exact Or.inr (Or.inr (Or.inr hs))

/-- C2 witness: a transport failure on an empty store leaves no temp file,
and the outcome is `failed` with the propagated non-empty reason. -/
theorem process_entry_failure_handling_witness :
    (process_entry sampleCfg (DownloadSpec.err "boom") sampleEntry []).1.status =
      "failed" ∧
    fsLookup (process_entry sampleCfg (DownloadSpec.err "boom") sampleEntry []).2
      (tempName (filenameOf sampleCfg sampleEntry)) = none ∧
    (process_entry sampleCfg (DownloadSpec.err "boom") sampleEntry []).1.reason =
      some "boom" := by
  have h := process_entry_failure_handling sampleCfg (DownloadSpec.err "boom")
    sampleEntry []
    (process_entry sampleCfg (DownloadSpec.err "boom") sampleEntry []).1
    (process_entry sampleCfg (DownloadSpec.err "boom") sampleEntry []).2 rfl
  exact ⟨by decide, (h.1 (by decide)).1, by decide⟩

/-- Helper: taking the names of a store commutes with erasing a name. -/
theorem map_fst_filter_ne (fs : FS) (filename : String) :
    (List.filter (fun p => !(p.1 = filename : Bool)) fs).map Prod.fst =
      (fs.map Prod.fst).filter (fun n => !(n = filename : Bool)) := by
  induction fs with
  | nil => rfl
  | cons p fs ih =>
    by_cases hp : p.1 = filename <;> simp [List.filter_cons, hp, ih]

/-- Helper: a pre-filter by `q` is absorbed by a post-filter by `q`. -/
theorem filter_pre_absorbed (q g : String → Bool) (m : List String) :
    ((m.filter q).filter g).filter q = (m.filter g).filter q := by
  induction m with
  | nil => rfl
  | cons a m ih =>
    have hcomb : List.filter (fun x => q x && (g x && q x)) m =
        List.filter (fun x => q x && g x) m := by
      apply List.filter_congr
      intro x _
      cases q x <;> cases g x <;> rfl
    by_cases hq : q a <;> by_cases hg : g a <;>
      simp [List.filter_cons, hq, hg, hcomb, ih]

/-- Helper: deleting the target file from the store does not change the
sibling set, because the `n ≠ filename` filter already drops every entry
the deletion removes. -/
theorem siblings_erase_eq (fs : FS) (base filename : String) :
    (find_existing_versions (fsErase fs filename) base).filter
      (fun n => !(n = filename : Bool)) =
    (find_existing_versions fs base).filter (fun n => !(n = filename : Bool)) := by
  unfold find_existing_versions fsErase
  rw [map_fst_filter_ne]
  exact filter_pre_absorbed _ _ _

/-- C6: the sibling set computed before downloading (after the
corrupt-leftover cleanup, which cannot change it) is every stored name
matching `*-{baseId}v*.pdf` except the target name; after a successful
download every such sibling is gone from the store and the status is
`replaced_old_version` exactly when the pre-download sibling set was
non-empty. -/
theorem process_entry_versioning (cfg : CrawlCfg) (dl : DownloadSpec) (e : EntryRec)
    (fs : FS) (out : Outcome) (fs2 : FS)
    (heq : process_entry cfg dl e fs = (out, fs2)) :
    out.status = "downloaded" ∨ out.status = "replaced_old_version" →
      (∀ n ∈ (find_existing_versions fs e.base_id).filter
          (fun n => !(n = filenameOf cfg e : Bool)), fsLookup fs2 n = none) ∧
      (out.status = "replaced_old_version" ↔
        (find_existing_versions fs e.base_id).filter
          (fun n => !(n = filenameOf cfg e : Bool)) ≠ []) := by
  have htemp := tempName_ne (filenameOf cfg e) (filenameOf_length cfg e)
  unfold process_entry at heq
  dsimp only at heq
  rcases hl : fsLookup fs (filenameOf cfg e) with _ | content
  · rw [hl] at heq
    dsimp only at heq
    have spec := processDownload_spec cfg dl e (filenameOf cfg e)
      (tempName (filenameOf cfg e)) ("pdf_files/" ++ filenameOf cfg e) fs hl htemp
      out fs2 heq
    intro h
    obtain ⟨_, _, _, _, _, _, hsib, hiff⟩ := spec.2.2.1 h
    exact ⟨hsib, hiff⟩
  · rw [hl] at heq
    dsimp only at heq
    by_cases hgt : payloadSize content > cfg.min_pdf_size_bytes
    · rw [if_pos hgt] at heq
      injection heq with ho hf
      subst ho
      intro h
      rcases h with h | h <;> simp [successOutcome] at h
    · rw [if_neg hgt] at heq
      have spec := processDownload_spec cfg dl e (filenameOf cfg e)
        (tempName (filenameOf cfg e)) ("pdf_files/" ++ filenameOf cfg e)
        (fsErase fs (filenameOf cfg e)) (fsLookup_erase_self fs (filenameOf cfg e))
        htemp out fs2 heq
      intro h
      obtain ⟨_, _, _, _, _, _, hsib, hiff⟩ := spec.2.2.1 h
      rw [siblings_erase_eq fs e.base_id (filenameOf cfg e)] at hsib hiff
      exact ⟨hsib, hiff⟩

/-- C6 witness: publishing `2101.00001v2` while the published v1 file
exists yields `replaced_old_version` and removes the v1 file. -/
theorem process_entry_versioning_witness :
    fsLookup (process_entry sampleCfg
        (DownloadSpec.ok "application/pdf" [8] none none) sampleEntry []).2
      (filenameOf sampleCfg sampleEntryV2) = none ∧
    (process_entry sampleCfg (DownloadSpec.ok "application/pdf" [8] none none)
      sampleEntryV2
      (process_entry sampleCfg (DownloadSpec.ok "application/pdf" [8] none none)
        sampleEntry []).2).1.status = "replaced_old_version" ∧
    fsLookup (process_entry sampleCfg
        (DownloadSpec.ok "application/pdf" [8] none none) sampleEntryV2
        (process_entry sampleCfg (DownloadSpec.ok "application/pdf" [8] none none)
          sampleEntry []).2).2
      (filenameOf sampleCfg sampleEntry) = none := by
  have h := process_entry_versioning sampleCfg
    (DownloadSpec.ok "application/pdf" [8] none none) sampleEntryV2
    (process_entry sampleCfg (DownloadSpec.ok "application/pdf" [8] none none)
      sampleEntry []).2
    (process_entry sampleCfg (DownloadSpec.ok "application/pdf" [8] none none)
      sampleEntryV2
      (process_entry sampleCfg (DownloadSpec.ok "application/pdf" [8] none none)
        sampleEntry []).2).1
    (process_entry sampleCfg (DownloadSpec.ok "application/pdf" [8] none none)
      sampleEntryV2
      (process_entry sampleCfg (DownloadSpec.ok "application/pdf" [8] none none)
        sampleEntry []).2).2
    rfl
  refine ⟨by decide, by decide, ?_⟩
  exact (h (Or.inr (by decide))).1 (filenameOf sampleCfg sampleEntry) (by decide)

/-- Helper: the shape of a successfully parsed feed entry. -/
theorem parseEntryElem_some_shape (fromIso : String → Option PyDateTime)
    (el : AtomEntryElem) (e : EntryRec) (heq : parseEntryElem fromIso el = some e) :
    ∃ b v p, reSearchArxiv el.idText.toList = some (b, v) ∧
      fromIso (replaceZOffset el.publishedText) = some p ∧
      e.base_id = b ∧ e.id_with_version = b ++ v.getD "v1" ∧ e.published = p ∧
      e.updated = (fromIso (replaceZOffset el.updatedText)).getD p := by
  unfold parseEntryElem at heq
  by_cases hid : el.idText = ""
  · rw [if_pos hid] at heq
    exact absurd heq (by simp)
  · rw [if_neg hid] at heq
    unfold extract_arxiv_ids at heq
    rcases hsearch : reSearchArxiv el.idText.toList with _ | ⟨b, v⟩
    · rw [hsearch] at heq
      simp at heq
    · rw [hsearch] at heq
      dsimp only at heq
      rcases hpub : fromIso (replaceZOffset el.publishedText) with _ | p
      · rw [hpub] at heq
        simp at heq
      · rw [hpub] at heq
        dsimp only at heq
        injection heq with h
        subst h
        exact ⟨b, v, p, rfl, rfl, rfl, rfl, rfl, rfl⟩

/-- Helper: an entry with no extractable identifier parses to nothing. -/
theorem parseEntryElem_no_id (fromIso : String → Option PyDateTime)
    (el : AtomEntryElem) (h : reSearchArxiv el.idText.toList = none) :
    parseEntryElem fromIso el = none := by
  unfold parseEntryElem
  by_cases hid : el.idText = ""
  · rw [if_pos hid]
  · rw [if_neg hid]
    unfold extract_arxiv_ids
    rw [h]

/-- Helper: an entry with an unparseable published timestamp parses to
nothing. -/
theorem parseEntryElem_bad_published (fromIso : String → Option PyDateTime)
    (el : AtomEntryElem) (h : fromIso (replaceZOffset el.publishedText) = none) :
    parseEntryElem fromIso el = none := by
  unfold parseEntryElem
  by_cases hid : el.idText = ""
  · rw [if_pos hid]
  · rw [if_neg hid]
    unfold extract_arxiv_ids
    rcases hsearch : reSearchArxiv el.idText.toList with _ | ⟨b, v⟩
    · rfl
    · dsimp only
      rw [h]

/-- C7: the feed parser skips an entry whose identifier holds no
`\d{4}\.\d{4,5}` pattern and an entry whose published timestamp does not
parse, continuing with the rest of the document; an extracted id without
a version tag defaults to `v1` (with one it keeps the tag); an
unparseable updated timestamp falls back to the published one; entries
come out in document order (parsing distributes over concatenation); and
the spec example — one entry with an unparseable identifier plus one
valid entry — yields exactly the one parsed entry. -/
theorem parse_atom_feed_policy (fromIso : String → Option PyDateTime)
    (el : AtomEntryElem) (elems rest : List AtomEntryElem) :
    (reSearchArxiv el.idText.toList = none →
      parse_atom_feed fromIso (el :: rest) = parse_atom_feed fromIso rest) ∧
    (fromIso (replaceZOffset el.publishedText) = none →
      parse_atom_feed fromIso (el :: rest) = parse_atom_feed fromIso rest) ∧
    (∀ b e, reSearchArxiv el.idText.toList = some (b, none) →
      parseEntryElem fromIso el = some e →
      e.base_id = b ∧ e.id_with_version = b ++ "v1") ∧
    (∀ b v e, reSearchArxiv el.idText.toList = some (b, some v) →
      parseEntryElem fromIso el = some e →
      e.base_id = b ∧ e.id_with_version = b ++ v) ∧
    (∀ e, parseEntryElem fromIso el = some e →
      fromIso (replaceZOffset el.updatedText) = none → e.updated = e.published) ∧
    (parse_atom_feed fromIso (elems ++ rest) =
      parse_atom_feed fromIso elems ++ parse_atom_feed fromIso rest) ∧
    (parse_atom_feed sampleFromIso [sampleBadElem, sampleGoodElem] =
      [{ base_id := "2101.00001", id_with_version := "2101.00001v2", title := "T",
         authors := ["A"],
         published := { year := 2021, rest := "2021-01-01T00:00:00+00:00" },
         updated := { year := 2021, rest := "2021-01-01T00:00:00+00:00" },
         pdf_url := "https://arxiv.org/pdf/2101.00001v2.pdf" }]) := by
  refine ⟨?_, ?_, ?_, ?_, ?_, ?_, ?_⟩
  · intro h
    simp [parse_atom_feed, parseEntryElem_no_id fromIso el h]
  · intro h
    simp [parse_atom_feed, parseEntryElem_bad_published fromIso el h]
  · intro b e hsearch heq
    obtain ⟨b2, v2, p, hs2, _, hb, hv, _, _⟩ := parseEntryElem_some_shape fromIso el e heq
    rw [hsearch] at hs2
    injection hs2 with hs2
    have hbb : b2 = b := by simpa using (congrArg Prod.fst hs2).symm
    have hvv : v2 = none := by simpa using (congrArg Prod.snd hs2).symm
    subst hbb
    rw [hvv] at hv
    exact ⟨hb, hv⟩
  · intro b v e hsearch heq
    obtain ⟨b2, v2, p, hs2, _, hb, hv, _, _⟩ := parseEntryElem_some_shape fromIso el e heq
    rw [hsearch] at hs2
    injection hs2 with hs2
    have hbb : b2 = b := by simpa using (congrArg Prod.fst hs2).symm
    have hvv : v2 = some v := by simpa using (congrArg Prod.snd hs2).symm
    subst hbb
    rw [hvv] at hv
    exact ⟨hb, hv⟩
  · intro e heq hupd
    obtain ⟨b2, v2, p, _, _, _, _, hpub, hu⟩ := parseEntryElem_some_shape fromIso el e heq
    rw [hupd] at hu
    rw [hu, hpub]
    rfl
  · simp [parse_atom_feed]
  · decide

/-- C7 witness: the skip rule applied to the concrete entry with an
unparseable identifier. -/
theorem parse_atom_feed_policy_witness :
    parse_atom_feed sampleFromIso [sampleBadElem] = parse_atom_feed sampleFromIso [] := by
  exact (parse_atom_feed_policy sampleFromIso sampleBadElem [] []).1 (by decide)

/-- C10: calling `crawl_with_keyword_list` with `max_num = 0` passes
`max_num = 0` to every per-keyword sub-run, each of which selects zero
entries, so the aggregated result list is empty and the aggregate
`success` field is false — for every keyword list and every transport
behaviour. -/
theorem crawl_with_keyword_list_zero_max (cfg : CrawlCfg)
    (fetchFor : String → Int → Except String (List EntryRec))
    (dl : EntryRec → DownloadSpec) (keyword_list : List String) (yr : Int × Int)
    (fs : FS) :
    (∀ fetch : Int → Except String (List EntryRec), ∀ dl2 kw fs2,
      (crawl cfg fetch dl2 kw yr 0 fs2).1.results = []) ∧
    (crawl_with_keyword_list cfg fetchFor dl keyword_list yr 0 fs).1.results = [] ∧
    (crawl_with_keyword_list cfg fetchFor dl keyword_list yr 0 fs).1.success = false := by
  refine ⟨fun fetch dl2 kw fs2 => crawl_zero_max_results cfg fetch dl2 kw yr fs2, ?_, ?_⟩
  · unfold crawl_with_keyword_list
    by_cases hk : ((keyword_list.map pyStrip).filter (fun k => !(k = "" : Bool))).isEmpty
    · simp [hk]
    · simp [hk, crawlListAux_zero_agg]
  · unfold crawl_with_keyword_list
    by_cases hk : ((keyword_list.map pyStrip).filter (fun k => !(k = "" : Bool))).isEmpty
    · simp [hk]
    · simp [hk, crawlListAux_zero_agg]

/-- Helper: copying records only allocates. -/
theorem copyRecs_next (h : Heap) (es : List Nat) : h.next ≤ (copyRecs h es).1.next := by
  induction es generalizing h with
  | nil => exact le_refl _
  | cons e rest ih =>
    have hi := ih (allocRec h ((h.recs e).getD ⟨[]⟩)).1
    have e1 : (allocRec h ((h.recs e).getD ⟨[]⟩)).1.next = h.next + 1 := rfl
    simp only [copyRecs]
    omega

/-- Helper: copying records leaves the dict objects unchanged. -/
theorem copyRecs_tops (h : Heap) (es : List Nat) : (copyRecs h es).1.tops = h.tops := by
  induction es generalizing h with
  | nil => rfl
  | cons e rest ih =>
    have hi := ih (allocRec h ((h.recs e).getD ⟨[]⟩)).1
    simp only [copyRecs]
    rw [hi]
    rfl

/-- Helper: copying records leaves the list objects unchanged. -/
theorem copyRecs_lists (h : Heap) (es : List Nat) : (copyRecs h es).1.lists = h.lists := by
  induction es generalizing h with
  | nil => rfl
  | cons e rest ih =>
    have hi := ih (allocRec h ((h.recs e).getD ⟨[]⟩)).1
    simp only [copyRecs]
    rw [hi]
    rfl

/-- Helper: copying records leaves the old record objects unchanged. -/
theorem copyRecs_recs_lt (h : Heap) (es : List Nat) (x : Nat) (hx : x < h.next) :
    (copyRecs h es).1.recs x = h.recs x := by
  induction es generalizing h with
  | nil => rfl
  | cons e rest ih =>
    have e1 : (allocRec h ((h.recs e).getD ⟨[]⟩)).1.next = h.next + 1 := rfl
    have hi := ih (allocRec h ((h.recs e).getD ⟨[]⟩)).1 (by omega)
    simp only [copyRecs]
    rw [hi]
    simp only [allocRec]
    rw [if_neg (by omega)]

/-- Helper: the copied addresses are fresh. -/
theorem copyRecs_addrs (h : Heap) (es : List Nat) (n : Nat)
    (hn : n ∈ (copyRecs h es).2) : h.next ≤ n ∧ n < (copyRecs h es).1.next := by
  induction es generalizing h with
  | nil => exact absurd hn (by simp [copyRecs])
  | cons e rest ih =>
    have e1 : (allocRec h ((h.recs e).getD ⟨[]⟩)).1.next = h.next + 1 := rfl
    have e2 : (allocRec h ((h.recs e).getD ⟨[]⟩)).2 = h.next := rfl
    have hnext := copyRecs_next (allocRec h ((h.recs e).getD ⟨[]⟩)).1 rest
    simp only [copyRecs] at hn ⊢
    rcases List.mem_cons.mp hn with h1 | h2
    · subst h1
      constructor
      · omega
      · omega
    · have hi := ih (allocRec h ((h.recs e).getD ⟨[]⟩)).1 h2
      exact ⟨by omega, hi.2⟩

/-- Helper: the copied records carry the original values. -/
theorem copyRecs_values (h : Heap) (es : List Nat) (hes : ∀ x ∈ es, x < h.next) :
    (copyRecs h es).2.map (fun n => ((copyRecs h es).1.recs n).getD ⟨[]⟩) =
      es.map (fun x => (h.recs x).getD ⟨[]⟩) := by
  induction es generalizing h with
  | nil => rfl
  | cons e rest ih =>
    have e1 : (allocRec h ((h.recs e).getD ⟨[]⟩)).1.next = h.next + 1 := rfl
    have e2 : (allocRec h ((h.recs e).getD ⟨[]⟩)).2 = h.next := rfl
    have hcopy : (copyRecs (allocRec h ((h.recs e).getD ⟨[]⟩)).1 rest).1.recs h.next =
        some ((h.recs e).getD ⟨[]⟩) := by
      rw [copyRecs_recs_lt (allocRec h ((h.recs e).getD ⟨[]⟩)).1 rest h.next (by omega)]
      simp [allocRec]
    simp only [copyRecs, List.map_cons]
    rw [e2, hcopy]
    simp only [Option.getD_some]
    have hrest := ih (allocRec h ((h.recs e).getD ⟨[]⟩)).1 (fun x hx => by
      have h2 := hes x (List.mem_cons_of_mem _ hx)
      omega)
    rw [hrest]
    have hmap : ∀ x ∈ rest,
        ((allocRec h ((h.recs e).getD ⟨[]⟩)).1.recs x).getD ⟨[]⟩ =
          (h.recs x).getD ⟨[]⟩ := by
      intro x hx
      have hxlt := hes x (List.mem_cons_of_mem _ hx)
      simp only [allocRec]
      rw [if_neg (by omega)]
    rw [List.map_congr_left hmap]

/-- Helper: `readParse` only looks at the dict, its results list, and the
records inside, so heaps agreeing there read equal. -/
theorem readParse_congr (hA hB : Heap) (a : Nat)
    (htop : hB.tops a = hA.tops a)
    (hlist : ∀ t, hA.tops a = some t → hB.lists t.resultsAddr = hA.lists t.resultsAddr)
    (hrec : ∀ t es, hA.tops a = some t → hA.lists t.resultsAddr = some es →
      ∀ e ∈ es, hB.recs e = hA.recs e) :
    readParse hB a = readParse hA a := by
  unfold readParse
  rw [htop]
  rcases ht : hA.tops a with _ | t
  · rfl
  · simp only [Option.some_bind]
    rw [hlist t ht]
    rcases hl : hA.lists t.resultsAddr with _ | es
    · rfl
    · simp only [Option.some_bind]
      have hm : es.map (fun e => (hB.recs e).getD ⟨[]⟩) =
          es.map (fun e => (hA.recs e).getD ⟨[]⟩) :=
        List.map_congr_left (fun e he => by rw [hrec t es ht hl e he])
      rw [hm]

/-- Helper: full characterization of `get_parse_state` on a live state:
the snapshot address and its list are fresh, the old objects are
untouched, and the copied records carry the original values. -/
theorem get_parse_state_spec (h : Heap) (a : Nat) (t : TopObj) (es : List Nat)
    (ht : h.tops a = some t) (hl : h.lists t.resultsAddr = some es)
    (hes : ∀ e ∈ es, e < h.next) :
    ((get_parse_state h a).2 = (copyRecs h es).1.next + 2) ∧
    ((get_parse_state h a).1.next = (copyRecs h es).1.next + 3) ∧
    (∀ x, x < h.next → (get_parse_state h a).1.tops x = h.tops x) ∧
    (∀ x, x < h.next → (get_parse_state h a).1.lists x = h.lists x) ∧
    (∀ x, x < h.next → (get_parse_state h a).1.recs x = h.recs x) ∧
    ((get_parse_state h a).1.tops (get_parse_state h a).2 =
      some { data := t.data, resultsAddr := (copyRecs h es).1.next + 1 }) ∧
    ((get_parse_state h a).1.lists ((copyRecs h es).1.next + 1) =
      some (copyRecs h es).2) ∧
    ((copyRecs h es).2.map (fun n => ((get_parse_state h a).1.recs n).getD ⟨[]⟩) =
      es.map (fun x => (h.recs x).getD ⟨[]⟩)) := by
  have hnext := copyRecs_next h es
  unfold get_parse_state
  rw [ht]
  simp only [Option.getD_some]
  rw [hl]
  simp only [Option.getD_some]
  refine ⟨rfl, rfl, ?_, ?_, ?_, ?_, ?_, ?_⟩
  · intro x hx
    simp only [allocTop, allocList]
    rw [if_neg (by omega)]
    rw [copyRecs_tops h es]
  · intro x hx
    simp only [allocTop, allocList]
    rw [if_neg (by omega), if_neg (by omega)]
    rw [copyRecs_lists h es]
  · intro x hx
    simp only [allocTop, allocList]
    exact copyRecs_recs_lt h es x hx
  · simp only [allocTop, allocList]
    rw [if_pos trivial]
  · simp only [allocTop, allocList]
    rw [if_pos trivial]
  · simp only [allocTop, allocList]
    exact copyRecs_values h es hes

/-- C9: `get_parse_state` and `get_excel_state` return snapshots sharing
no mutable object with the stored state: the snapshot read equals the
stored value, its reachable addresses are disjoint from the state's,
mutating any object reachable from the snapshot leaves the stored state's
value unchanged, and every store transition (`begin`/`append`/`complete`/
`fail`, and the excel `reset`/`succeed`/`fail`) leaves the snapshot's
value unchanged. -/
theorem snapshot_independence (h : Heap) (a : Nat) (h2 : Heap) (a2 : Nat) :
    (HeapWF h → ParseLive h a →
      readParse (get_parse_state h a).1 a = readParse h a ∧
      readParse (get_parse_state h a).1 (get_parse_state h a).2 = readParse h a ∧
      (∀ b ∈ parseAddrs (get_parse_state h a).1 (get_parse_state h a).2,
        b ∉ parseAddrs (get_parse_state h a).1 a) ∧
      (∀ b, b ∉ parseAddrs (get_parse_state h a).1 a →
        ∀ f g r,
          readParse (setTopObj (get_parse_state h a).1 b f) a =
            readParse (get_parse_state h a).1 a ∧
          readParse (setListObj (get_parse_state h a).1 b g) a =
            readParse (get_parse_state h a).1 a ∧
          readParse (setRecObj (get_parse_state h a).1 b r) a =
            readParse (get_parse_state h a).1 a) ∧
      (∀ total msg src now,
        readParse (beginParseH (get_parse_state h a).1 a total msg src now)
            (get_parse_state h a).2 =
          readParse (get_parse_state h a).1 (get_parse_state h a).2) ∧
      (∀ rec now,
        readParse (appendParseH (get_parse_state h a).1 a rec now)
            (get_parse_state h a).2 =
          readParse (get_parse_state h a).1 (get_parse_state h a).2) ∧
      (∀ msg now,
        readParse (completeParseH (get_parse_state h a).1 a msg now)
            (get_parse_state h a).2 =
          readParse (get_parse_state h a).1 (get_parse_state h a).2) ∧
      (∀ em src now,
        readParse (failParseH (get_parse_state h a).1 a em src now)
            (get_parse_state h a).2 =
          readParse (get_parse_state h a).1 (get_parse_state h a).2)) ∧
    (HeapWF h2 → (h2.recs a2).isSome = true →
      readExcel (get_excel_state h2 a2).1 a2 = readExcel h2 a2 ∧
      readExcel (get_excel_state h2 a2).1 (get_excel_state h2 a2).2 =
        readExcel h2 a2 ∧
      (get_excel_state h2 a2).2 ≠ a2 ∧
      (∀ f, readExcel (setRecObj (get_excel_state h2 a2).1 (get_excel_state h2 a2).2 f)
          a2 = readExcel (get_excel_state h2 a2).1 a2) ∧
      (∀ td now, readExcel (resetExcelH (get_excel_state h2 a2).1 a2 td now)
          (get_excel_state h2 a2).2 =
        readExcel (get_excel_state h2 a2).1 (get_excel_state h2 a2).2) ∧
      (∀ fp pd now, readExcel (succeedExcelH (get_excel_state h2 a2).1 a2 fp pd now)
          (get_excel_state h2 a2).2 =
        readExcel (get_excel_state h2 a2).1 (get_excel_state h2 a2).2) ∧
      (∀ em now, readExcel (failExcelH (get_excel_state h2 a2).1 a2 em now)
          (get_excel_state h2 a2).2 =
        readExcel (get_excel_state h2 a2).1 (get_excel_state h2 a2).2)) := by
  constructor
  · intro hWF hlive
    obtain ⟨t, ht, es, hl, hesSome⟩ := hlive
    have ha : a < h.next := by
      by_contra hc
      push_neg at hc
      rw [hWF.1 a hc] at ht
      cases ht
    have hra : t.resultsAddr < h.next := by
      by_contra hc
      push_neg at hc
      rw [hWF.2.1 t.resultsAddr hc] at hl
      cases hl
    have hes : ∀ e ∈ es, e < h.next := by
      intro e he
      by_contra hc
      push_neg at hc
      have hnone := hWF.2.2 e hc
      have hs := hesSome e he
      rw [hnone] at hs
      cases hs
    obtain ⟨hs2, hHnext, hTlt, hLlt, hRlt, hTs, hLs, hVals⟩ :=
      get_parse_state_spec h a t es ht hl hes
    have hnext := copyRecs_next h es
    have htH : (get_parse_state h a).1.tops a = some t := by rw [hTlt a ha, ht]
    have hlH : (get_parse_state h a).1.lists t.resultsAddr = some es := by
      rw [hLlt _ hra, hl]
    have hrH : ∀ e ∈ es, (get_parse_state h a).1.recs e = h.recs e :=
      fun e he => hRlt e (hes e he)
    have c1 : readParse (get_parse_state h a).1 a = readParse h a := by
      apply readParse_congr h _ a
      · exact hTlt a ha
      · intro t0 ht0
        rw [ht0] at ht
        injection ht with ht
        subst ht
        exact hLlt _ hra
      · intro t0 es0 ht0 hl0 e he
        rw [ht0] at ht
        injection ht with ht
        subst ht
        rw [hl0] at hl
        injection hl with hl
        subst hl
        exact hRlt e (hes e he)
    have hpa : parseAddrs (get_parse_state h a).1 a = a :: t.resultsAddr :: es := by
      simp [parseAddrs, htH, hlH]
    have hreadHs : readParse (get_parse_state h a).1 (get_parse_state h a).2 =
        some (t.data, es.map (fun x => (h.recs x).getD ⟨[]⟩)) := by
      unfold readParse
      rw [hTs]
      simp only [Option.some_bind]
      rw [hLs]
      simp only [Option.some_bind]
      rw [hVals]
    have hreadha : readParse h a =
        some (t.data, es.map (fun x => (h.recs x).getD ⟨[]⟩)) := by
      unfold readParse
      rw [ht]
      simp only [Option.some_bind]
      rw [hl]
      simp only [Option.some_bind]
    have c2 : readParse (get_parse_state h a).1 (get_parse_state h a).2 =
        readParse h a := by rw [hreadHs, hreadha]
    have hsnap : parseAddrs (get_parse_state h a).1 (get_parse_state h a).2 =
        (get_parse_state h a).2 :: ((copyRecs h es).1.next + 1) :: (copyRecs h es).2 := by
      simp [parseAddrs, hTs, hLs]
    have hsnap_ge : ∀ b ∈ parseAddrs (get_parse_state h a).1 (get_parse_state h a).2,
        h.next ≤ b := by
      intro b hb
      rw [hsnap] at hb
      rcases List.mem_cons.mp hb with h1 | hb2
      · subst h1
        omega
      · rcases List.mem_cons.mp hb2 with h1 | h3
        · subst h1
          omega
        · exact (copyRecs_addrs h es b h3).1
    have hsnap_lt : ∀ b ∈ parseAddrs (get_parse_state h a).1 (get_parse_state h a).2,
        b < (get_parse_state h a).1.next := by
      intro b hb
      rw [hsnap] at hb
      rcases List.mem_cons.mp hb with h1 | hb2
      · subst h1
        omega
      · rcases List.mem_cons.mp hb2 with h1 | h3
        · subst h1
          omega
        · have := (copyRecs_addrs h es b h3).2
          omega
    have c3 : ∀ b ∈ parseAddrs (get_parse_state h a).1 (get_parse_state h a).2,
        b ∉ parseAddrs (get_parse_state h a).1 a := by
      intro b hb hmem
      have hge := hsnap_ge b hb
      rw [hpa] at hmem
      rcases List.mem_cons.mp hmem with h1 | hmem2
      · subst h1
        omega
      · rcases List.mem_cons.mp hmem2 with h1 | h3
        · subst h1
          omega
        · have := hes b h3
          omega
    have c4 : ∀ b, b ∉ parseAddrs (get_parse_state h a).1 a →
        ∀ f g r,
          readParse (setTopObj (get_parse_state h a).1 b f) a =
            readParse (get_parse_state h a).1 a ∧
          readParse (setListObj (get_parse_state h a).1 b g) a =
            readParse (get_parse_state h a).1 a ∧
          readParse (setRecObj (get_parse_state h a).1 b r) a =
            readParse (get_parse_state h a).1 a := by
      intro b hb f g r
      have hba : a ≠ b := by
        intro hc
        exact hb (by rw [hpa, ← hc]; exact List.mem_cons_self _ _)
      have hbr : t.resultsAddr ≠ b := by
        intro hc
        exact hb (by
          rw [hpa, ← hc]
          exact List.mem_cons_of_mem _ (List.mem_cons_self _ _))
      have hbes : ∀ e ∈ es, e ≠ b := by
        intro e he hc
        exact hb (by
          rw [hpa, ← hc]
          exact List.mem_cons_of_mem _ (List.mem_cons_of_mem _ he))
      refine ⟨?_, ?_, ?_⟩
      · apply readParse_congr (get_parse_state h a).1 _ a
        · simp only [setTopObj]
          rw [if_neg hba]
        · intro t0 _
          rfl
        · intro t0 es0 _ _ e _
          rfl
      · apply readParse_congr (get_parse_state h a).1 _ a
        · rfl
        · intro t0 ht0
          rw [htH] at ht0
          injection ht0 with ht0
          subst ht0
          simp only [setListObj]
          rw [if_neg hbr]
        · intro t0 es0 _ _ e _
          rfl
      · apply readParse_congr (get_parse_state h a).1 _ a
        · rfl
        · intro t0 _
          rfl
        · intro t0 es0 ht0 hl0 e he
          rw [htH] at ht0
          injection ht0 with ht0
          subst ht0
          rw [hlH] at hl0
          injection hl0 with hl0
          subst hl0
          simp only [setRecObj]
          rw [if_neg (hbes e he)]
    have hsa : ¬ ((get_parse_state h a).2 = a) := by
      have := hsnap_ge (get_parse_state h a).2 (by rw [hsnap]; exact List.mem_cons_self _ _)
      omega
    have hLa_ne_ra : ¬ ((copyRecs h es).1.next + 1 = t.resultsAddr) := by omega
    have hLa_ne_next : ¬ ((copyRecs h es).1.next + 1 = (get_parse_state h a).1.next) := by
      omega
    have hs_ne_next : ¬ ((get_parse_state h a).2 = (get_parse_state h a).1.next) := by
      omega
    have hcop_lt : ∀ e ∈ (copyRecs h es).2, e < (get_parse_state h a).1.next := by
      intro e he
      have := (copyRecs_addrs h es e he).2
      omega
    have hsnapshape : ∀ t0, (get_parse_state h a).1.tops (get_parse_state h a).2 =
        some t0 → t0.resultsAddr = (copyRecs h es).1.next + 1 := by
      intro t0 ht0
      rw [hTs] at ht0
      injection ht0 with ht0
      subst ht0
      rfl
    have hsnaplist : ∀ t0 es0,
        (get_parse_state h a).1.tops (get_parse_state h a).2 = some t0 →
        (get_parse_state h a).1.lists t0.resultsAddr = some es0 →
        es0 = (copyRecs h es).2 := by
      intro t0 es0 ht0 hl0
      rw [hTs] at ht0
      injection ht0 with ht0
      subst ht0
      rw [hLs] at hl0
      injection hl0 with hl0
      subst hl0
      rfl
    refine ⟨c1, c2, c3, c4, ?_, ?_, ?_, ?_⟩
    · intro total msg src now
      apply readParse_congr (get_parse_state h a).1 _ (get_parse_state h a).2
      · simp only [beginParseH, setTopObj, allocList]
        rw [if_neg hsa]
      · intro t0 ht0
        have hres := hsnapshape t0 ht0
        simp only [beginParseH, setTopObj, allocList]
        rw [hres]
        rw [if_neg hLa_ne_next]
      · intro t0 es0 _ _ e _
        rfl
    · intro rec now
      apply readParse_congr (get_parse_state h a).1 _ (get_parse_state h a).2
      · unfold appendParseH
        rw [htH]
        simp only [setTopObj, setListObj, allocRec]
        rw [if_neg hsa]
      · intro t0 ht0
        have hres := hsnapshape t0 ht0
        unfold appendParseH
        rw [htH]
        simp only [setTopObj, setListObj, allocRec]
        rw [hres]
        rw [if_neg hLa_ne_ra]
      · intro t0 es0 ht0 hl0 e he
        have hes0 := hsnaplist t0 es0 ht0 hl0
        subst hes0
        unfold appendParseH
        rw [htH]
        simp only [setTopObj, setListObj, allocRec]
        rw [if_neg (by
          have := hcop_lt e he
          omega)]
    · intro msg now
      apply readParse_congr (get_parse_state h a).1 _ (get_parse_state h a).2
      · simp only [completeParseH, setTopObj]
        rw [if_neg hsa]
      · intro t0 _
        rfl
      · intro t0 es0 _ _ e _
        rfl
    · intro em src now
      apply readParse_congr (get_parse_state h a).1 _ (get_parse_state h a).2
      · simp only [failParseH, setTopObj, allocList]
        rw [if_neg hsa]
      · intro t0 ht0
        have hres := hsnapshape t0 ht0
        simp only [failParseH, setTopObj, allocList]
        rw [hres]
        rw [if_neg hLa_ne_next]
      · intro t0 es0 _ _ e _
        rfl
  · intro hWF2 hsome
    obtain ⟨r0, hr0⟩ := Option.isSome_iff_exists.mp hsome
    have ha2 : a2 < h2.next := by
      by_contra hc
      push_neg at hc
      rw [hWF2.2.2 a2 hc] at hr0
      cases hr0
    have hget : get_excel_state h2 a2 =
        ({ next := h2.next + 1, tops := h2.tops, lists := h2.lists,
           recs := fun x => if x = h2.next then some r0 else h2.recs x }, h2.next) := by
      unfold get_excel_state allocRec
      rw [hr0]
      rfl
    rw [hget]
    refine ⟨?_, ?_, ?_, ?_, ?_, ?_, ?_⟩
    · simp only [readExcel]
      rw [if_neg (by omega)]
    · simp only [readExcel]
      rw [if_pos trivial, hr0]
    · omega
    · intro f
      simp only [readExcel, setRecObj]
      rw [if_neg (by omega)]
    · intro td now
      simp only [readExcel, resetExcelH, setRecObj]
      rw [if_neg (by omega)]
    · intro fp pd now
      simp only [readExcel, succeedExcelH, setRecObj]
      rw [if_neg (by omega)]
    · intro em now
      simp only [readExcel, failExcelH, setRecObj]
      rw [if_neg (by omega)]

/-- C9 witness: the independence theorem applied to a concrete live heap,
discharging well-formedness and liveness there. -/
theorem snapshot_independence_witness :
    readParse (get_parse_state sampleHeap 0).1 0 = readParse sampleHeap 0 ∧
    (get_excel_state sampleHeap 2).2 ≠ 2 := by
  have hWF : HeapWF sampleHeap := by
    refine ⟨?_, ?_, ?_⟩ <;>
      (intro x hx
       simp only [sampleHeap] at hx ⊢
       rw [if_neg (by omega)])
  have hlive : ParseLive sampleHeap 0 := by
    refine ⟨_, rfl, [2], rfl, ?_⟩
    intro e he
    have he2 : e = 2 := by simpa using he
    subst he2
    rfl
  have h := snapshot_independence sampleHeap 0 sampleHeap 2
  exact ⟨(h.1 hWF hlive).1, (h.2 hWF rfl).2.2.1⟩

end PaperCrawl